import Mathlib

/-!
Formal model of the fact-construction engine of the cos_office_occupancy_pipeline
repository (src/create_fact_occupancy.py and src/create_fact_occupancy_aggregated.py).

Tables are lists of structures; pandas timestamps are modelled as serial day
numbers (days since 1970-01-01, `Int`), with the proleptic-Gregorian calendar
fields (year, month, day-of-month) computed by the standard civil-from-days
algorithm, which is exactly the calendar pandas uses.  Missing values (pandas
NA) are `Option`; occupancy rates are exact rationals.  A builder run that
raises is `none`: `pd.merge_asof` validates that its `on` column is globally
monotone on both frames (even under `by=`), which the per-LOB builder's
(office_location, date) sort order violates on multi-location data, so its
model returns `Option (List FactRow)`; the aggregated builder sorts by
(date, office_location) and always passes, so its model is total.
-/

/-! ## Calendar arithmetic

`pd.Timestamp` values are days; `dt.year / dt.month / dt.day` are the Gregorian
calendar fields, `dt.dayofweek` is 0 = Monday .. 6 = Sunday, and
`to_period('W-SUN').start_time` is the Monday of the date's (ISO) week. -/

/-- Gregorian (year, month, day-of-month) of a serial day number
(days since 1970-01-01; negative allowed).  Standard civil-from-days
integer algorithm. -/
def civilFromDays (z0 : Int) : Int × Int × Int :=
  let z := z0 + 719468
  let era : Int := z.fdiv 146097
  let doe : Int := z - era * 146097
  let yoe : Int := (doe - doe / 1460 + doe / 36524 - doe / 146096) / 365
  let y : Int := yoe + era * 400
  let doy : Int := doe - (365 * yoe + yoe / 4 - yoe / 100)
  let mp : Int := (5 * doy + 2) / 153
  let dom : Int := doy - (153 * mp + 2) / 5 + 1
  let m : Int := mp + (if mp < 10 then 3 else -9)
  (y + (if m ≤ 2 then 1 else 0), m, dom)

/-- `date.dt.year`. -/
def yearOf (d : Int) : Int := (civilFromDays d).1

/-- `date.dt.month`. -/
def monthOf (d : Int) : Int := (civilFromDays d).2.1

/-- `date.dt.day`. -/
def domOf (d : Int) : Int := (civilFromDays d).2.2

/-- `date.dt.dayofweek`: 0 = Monday .. 6 = Sunday.
1970-01-01 (day 0) was a Thursday (= 3). -/
def dow (d : Int) : Int := (d + 3) % 7

/-- `date.dt.to_period('W-SUN').dt.start_time`: the Monday of the date's week. -/
def weekStart (d : Int) : Int := d - dow d

/-- `strftime('%Y%m%d').astype(int)`: the YYYYMMDD integer key of a date. -/
def encodeDate (d : Int) : Int := yearOf d * 10000 + monthOf d * 100 + domOf d

/-- Number of days of a Gregorian month. -/
def daysInMonth (y m : Int) : Int :=
  if m = 2 then (if y % 4 = 0 ∧ (y % 100 ≠ 0 ∨ y % 400 = 0) then 29 else 28)
  else if m = 4 ∨ m = 6 ∨ m = 9 ∨ m = 11 then 30
  else 31

/-- `pd.offsets.MonthEnd(0)` applied to a date: the last day of its month
(a date already at month end stays put). -/
def monthEnd (d : Int) : Int := d + (daysInMonth (yearOf d) (monthOf d) - domOf d)

/-- Lexicographic order on strings, expressed over the character list (the
order pandas sorts object columns by; `String.lt` itself is stated on the
character list as well, but through an iterator that proofs cannot evaluate,
so the sorts below use this equivalent form). -/
def strLt (a b : String) : Prop := a.data < b.data

instance : DecidableRel strLt := fun a b => by unfold strLt; infer_instance

/-- Reflexive closure of `strLt`. -/
def strLe (a b : String) : Prop := strLt a b ∨ a = b

instance : DecidableRel strLe := fun a b => by unfold strLe; infer_instance

/-! ## Input tables

Columns actually consumed by the fact builders. -/

/-- A row of `dimensions/DimDate.csv` (only `date_key` and `date` are used). -/
structure DateRow where
  date_key : Int
  date : Int
deriving DecidableEq, Repr

/-- A row of `dimensions/DimLocation.csv` (only the used columns). -/
structure LocationRow where
  location_key : Int
  office_location : String
deriving DecidableEq, Repr

/-- A row of `dimensions/DimLineOfBusiness.csv` (only the used columns). -/
structure LobRow where
  lob_key : Int
  line_of_business : String
deriving DecidableEq, Repr

/-- A row of `cleaned_data/Occupancy_cleaned.csv` (only the used columns;
`groupby(...).size()` counts rows, so the person identity is irrelevant). -/
structure OccRow where
  logon_date : Int
  office_location : String
  line_of_business : String
deriving DecidableEq, Repr

/-- A row of `cleaned_data/Deskcount_cleaned.csv`; `deskcount` is nullable
(pandas `Int64`). -/
structure DeskRow where
  date : Int
  office_location : String
  deskcount : Option Int
deriving DecidableEq, Repr

/-- The five input tables of `create_fact_occupancy` /
`create_fact_occupancy_aggregated`. -/
structure Inputs where
  dim_date : List DateRow
  dim_location : List LocationRow
  dim_lob : List LobRow
  occupancy : List OccRow
  deskcount : List DeskRow

/-! ## Hybrid-day classifier core

`calculate_hybrid_day_flags` appears in both fact builders; the only difference
is that the per-LOB variant restricts candidates to
`daily_total_attendance > 0` while the aggregated variant admits all eligible
dates.  The selection layer below is shared, with that filter as the
`requirePos` parameter; all it needs from a fact row is (date, location,
attendance). -/

/-- The (date, office_location, attendance_count) projection of a fact row,
which is all the hybrid-day selection reads. -/
structure DayRec where
  date : Int
  loc : String
  att : Nat
deriving DecidableEq, Repr

/-- `fact_table[['date']].drop_duplicates()`: the distinct dates of the table. -/
def datesOf (recs : List DayRec) : List Int := (recs.map (·.date)).dedup

/-- `weekday_counts`: number of distinct weekday dates of the table falling in
ISO week `w` (identified by its Monday) and calendar month `m`
(`groupby(['week_start','month'])['date'].nunique()` over `dow < 5`). -/
def weekdayCountMW (dates : List Int) (w m : Int) : Nat :=
  (dates.filter fun d =>
    decide (dow d < 5) && decide (weekStart d = w) && decide (monthOf d = m)).length

/-- `date_elig['eligible_date']`: the date is a weekday and its month
contributes at least 3 distinct weekday dates (among the table's dates) to its
ISO week; a date with no `weekday_counts` group gets count 0 (`fillna(0)`). -/
def eligibleDate (dates : List Int) (d : Int) : Bool :=
  decide (dow d < 5) && decide (3 ≤ weekdayCountMW dates (weekStart d) (monthOf d))

/-- `daily_totals['daily_total_attendance']`: total attendance of a
(location, date) across all rows sharing it (for the per-LOB table that sums
over lines of business). -/
def dailyTotal (recs : List DayRec) (loc : String) (d : Int) : Nat :=
  ((recs.filter fun p => decide (p.loc = loc) && decide (p.date = d)).map (·.att)).sum

/-- The `daily_totals` rows of one (location, ISO week) group: the distinct
dates on which the location has rows, ascending (the groupby emits its keys in
ascending (location, week_start, date) order), paired with their daily totals. -/
def weekGroup (recs : List DayRec) (loc : String) (w : Int) : List (Int × Nat) :=
  (List.insertionSort (· ≤ ·)
      (((recs.filter fun p => decide (p.loc = loc)).map (·.date)).dedup.filter fun d =>
        decide (weekStart d = w))).map
    fun d => (d, dailyTotal recs loc d)

/-- `daily_totals_eligible` restricted to one (location, week) group: keep
eligible dates, and — only when `requirePos` (the per-LOB variant) — those with
positive daily total. -/
def eligibleGroup (requirePos : Bool) (recs : List DayRec) (loc : String) (w : Int) :
    List (Int × Nat) :=
  (weekGroup recs loc w).filter fun p =>
    eligibleDate (datesOf recs) p.1 && (!requirePos || decide (0 < p.2))

/-- The candidates of one (location, week) group sorted by daily total
descending (`sort_values` on several keys is a stable lexsort, so ties keep
the ascending date order; `insertionSort` is likewise stable). -/
def rankedGroup (requirePos : Bool) (recs : List DayRec) (loc : String) (w : Int) :
    List (Int × Nat) :=
  List.insertionSort (fun a b => b.2 ≤ a.2) (eligibleGroup requirePos recs loc w)

/-- `top3` for one (location, week) group: the first 3 rows of the ranked
candidates (`groupby(...).head(3)` takes the first 3 rows of each group of the
sorted frame). -/
def top3 (requirePos : Bool) (recs : List DayRec) (loc : String) (w : Int) : List Int :=
  ((rankedGroup requirePos recs loc w).take 3).map (·.1)

/-! ## Shared pipeline pieces -/

/-- `groupby(key).size()`: one row per observed key with the number of source
rows carrying it (keys in first-occurrence order; only their values matter). -/
def groupCounts {α κ : Type} [DecidableEq κ] (key : α → κ) (l : List α) : List (κ × Nat) :=
  ((l.map key).dedup).map fun k => (k, l.countP fun a => decide (key a = k))

/-- Left join of a grid key against `groupCounts`, with `fillna(0)`:
the count attached to the key, or 0 when no group exists.  (The group keys are
unique, so the left join is row- and order-preserving.) -/
def lookupCount {κ : Type} [DecidableEq κ] (ac : List (κ × Nat)) (k : κ) : Nat :=
  match ac.find? fun p => decide (p.1 = k) with
  | some p => p.2
  | none => 0

/-- Combining step of the backward as-of sweep: keep the later-dated snapshot,
preferring the newcomer on equal dates (the sort feeding `merge_asof` is
stable, so on equal dates the row appearing last in the input wins). -/
def pickLater (acc : Option DeskRow) (s : DeskRow) : Option DeskRow :=
  match acc with
  | none => some s
  | some a => if a.date ≤ s.date then some s else some a

/-- `pd.merge_asof(..., on='date', by='office_location', direction='backward')`
against the deskcount table (both sides sorted by location/date with a stable
lexsort): the snapshot row for this location with the greatest date ≤ `d`,
resolving equal dates to the one appearing last in the input. -/
def asofSnap (snaps : List DeskRow) (loc : String) (d : Int) : Option DeskRow :=
  (snaps.filter fun s => decide (s.office_location = loc) && decide (s.date ≤ d)).foldl
    pickLater none

/-- Step 5 of both builders:
`(attendance_count / deskcount.astype('Float64')).where(deskcount > 0)` —
the exact rate `att / c` when the capacity `c` is a positive number, NA
otherwise (`mkRat n d` is `n / d`; see `occupancyRate_of_pos`). -/
def occupancyRate (att : Nat) (cap : Option Int) : Option ℚ :=
  match cap with
  | some c => if 0 < c then some (mkRat (att : Int) c.toNat) else none
  | none => none

/-- `Index(values).is_monotonic_increasing`: the validation `pd.merge_asof`
runs on the `on` column of each input frame as a whole — even when `by=` is
given, the grouping does not relax it.  A frame whose `on` column is not
globally non-decreasing makes the call raise
`ValueError: left keys must be sorted` (resp. `right keys must be sorted`). -/
def keysSorted : List Int → Bool
  | [] => true
  | [_] => true
  | a :: b :: t => decide (a ≤ b) && keysSorted (b :: t)

/-! ## `src/create_fact_occupancy.py` (per line of business) -/

namespace PerLob

/-- A row of the `FactOccupancy` output table (final column set of
`create_fact_occupancy`). -/
structure FactRow where
  date_key : Int
  location_key : Int
  lob_key : Int
  date : Int
  office_location : String
  line_of_business : String
  year : Int
  month : Int
  is_weekend : Bool
  attendance_count : Nat
  deskcount : Option Int
  occupancy_rate : Option ℚ
  is_hybrid_day : Bool
deriving DecidableEq, Repr

/-- The (date, location, attendance) projection the classifier ranks on. -/
def toDayRecs (t : List FactRow) : List DayRec :=
  t.map fun r => ⟨r.date, r.office_location, r.attendance_count⟩

/-- Per-row effect of `calculate_hybrid_day_flags` given the whole table `t`:
recompute `year`/`month` from the date, and set `is_hybrid_day` exactly when
the row's (location, week, date) is in the `top_keys` selection (which in this
variant requires `daily_total_attendance > 0`) and — the hard guard of
lines 92–95 — the date is eligible. -/
def flagRow (t : List FactRow) (r : FactRow) : FactRow :=
  { r with
    year := yearOf r.date
    month := monthOf r.date
    is_hybrid_day :=
      decide (r.date ∈ top3 true (toDayRecs t) r.office_location (weekStart r.date))
        && eligibleDate (datesOf (toDayRecs t)) r.date }

/-- `calculate_hybrid_day_flags` of `create_fact_occupancy.py`.  The
`date_elig` merge on the unique `date` column is 1:1, so the function is a
per-row map over the table. -/
def calculate_hybrid_day_flags (t : List FactRow) : List FactRow :=
  t.map (flagRow t)

/-- `occupancy_data['date_key']`: the YYYYMMDD join key of an attendance event,
with its other two join columns. -/
def occKey (e : OccRow) : Int × String × String :=
  (encodeDate e.logon_date, e.office_location, e.line_of_business)

/-- `deskcount_data['date'].max()` (`none` on an empty table, where pandas
yields NaT and every `≤` comparison against it is False). -/
def latestDeskDate (inp : Inputs) : Option Int := (inp.deskcount.map (·.date)).max?

/-- `occupancy_data[occupancy_data['logon_date'] <= latest_desk_date]`. -/
def occFiltered (inp : Inputs) : List OccRow :=
  inp.occupancy.filter fun e =>
    match latestDeskDate inp with
    | some m => decide (e.logon_date ≤ m)
    | none => false

/-- `dim_date[dim_date['date'] <= latest_desk_date]`. -/
def dimDateFiltered (inp : Inputs) : List DateRow :=
  inp.dim_date.filter fun r =>
    match latestDeskDate inp with
    | some m => decide (r.date ≤ m)
    | none => false

/-- Steps 1–3: the cross join `dim_date × dim_location × dim_lob` (row-major,
as pandas `how='cross'` enumerates it), with the attendance count attached by
the left join against `groupby(...).size()` and `fillna(0)` (the group keys are
unique, so the join keeps one row per grid row and the grid order).  Columns
not yet computed hold their initial placeholder. -/
def gridRow (inp : Inputs) (dr : DateRow) (lr : LocationRow) (br : LobRow) : FactRow :=
  { date_key := dr.date_key
    location_key := lr.location_key
    lob_key := br.lob_key
    date := dr.date
    office_location := lr.office_location
    line_of_business := br.line_of_business
    year := 0
    month := 0
    is_weekend := false
    attendance_count := lookupCount (groupCounts occKey (occFiltered inp))
      (dr.date_key, lr.office_location, br.line_of_business)
    deskcount := none
    occupancy_rate := none
    is_hybrid_day := false }

/-- The grid itself: one row per dimension combination, row-major as pandas
`how='cross'` enumerates it. -/
def grid (inp : Inputs) : List FactRow :=
  (dimDateFiltered inp).flatMap fun dr =>
    inp.dim_location.flatMap fun lr =>
      inp.dim_lob.map fun br => gridRow inp dr lr br

/-- Per-row effect of step 4: the as-of deskcount; a missing match stays NA
(`Int64`). -/
def capRow (inp : Inputs) (r : FactRow) : FactRow :=
  { r with deskcount :=
      match asofSnap inp.deskcount r.office_location r.date with
      | some s => s.deskcount
      | none => none }

/-- The left frame of step 4:
`fact_table.sort_values(['office_location', 'date'])` (line 194). -/
def sortedGrid (inp : Inputs) : List FactRow :=
  List.insertionSort
    (fun a b => strLt a.office_location b.office_location
      ∨ (a.office_location = b.office_location ∧ a.date ≤ b.date)) (grid inp)

/-- The right frame of step 4:
`deskcount_data.sort_values(['office_location', 'date'])` (line 195). -/
def sortedDesk (inp : Inputs) : List DeskRow :=
  List.insertionSort
    (fun a b => strLt a.office_location b.office_location
      ∨ (a.office_location = b.office_location ∧ a.date ≤ b.date)) inp.deskcount

/-- The precondition `pd.merge_asof` checks on the two frames of step 4
before merging: the `on` column (`date`) must be globally monotone
non-decreasing on each whole frame.  The comment at line 193 says the
(office_location, date) sorts establish it, but they order the date column
per location only, so it steps back at a location boundary whenever two
locations and two distinct dates are involved. -/
def mergeAsofOk (inp : Inputs) : Bool :=
  keysSorted ((sortedGrid inp).map (·.date))
    && keysSorted ((sortedDesk inp).map (·.date))

/-- Step 4: sort both frames by (office_location, date) and attach the as-of
deskcount.  `none` is `pd.merge_asof` raising
`ValueError: left keys must be sorted` (or `right keys must be sorted`): the
run aborts and no fact table is produced. -/
def withCapacity (inp : Inputs) : Option (List FactRow) :=
  if mergeAsofOk inp then some ((sortedGrid inp).map (capRow inp)) else none

/-- Per-row effect of step 5. -/
def rateRow (r : FactRow) : FactRow :=
  { r with occupancy_rate := occupancyRate r.attendance_count r.deskcount }

/-- Step 5: the occupancy rate column (reached only when step 4 did not
raise). -/
def withRate (inp : Inputs) : Option (List FactRow) :=
  (withCapacity inp).map (List.map rateRow)

/-- The table `withRate` carries on a run that passes step 4's validation
(steps 4–5 applied to the sorted grid). -/
def withRateTable (inp : Inputs) : List FactRow :=
  ((sortedGrid inp).map (capRow inp)).map rateRow

/-- Per-row effect of the weekend flag added after step 6. -/
def weekendRow (r : FactRow) : FactRow :=
  { r with is_weekend := decide (5 ≤ dow r.date) }

/-- Step 6: hybrid flags, then the weekend flag. -/
def withFlags (inp : Inputs) : Option (List FactRow) :=
  (withRate inp).map fun t => (calculate_hybrid_day_flags t).map weekendRow

/-- The sort key of step 7: (date_key, office_location, line_of_business). -/
def rowLe (a b : FactRow) : Prop :=
  a.date_key < b.date_key
    ∨ (a.date_key = b.date_key
        ∧ (strLt a.office_location b.office_location
            ∨ (a.office_location = b.office_location
                ∧ strLe a.line_of_business b.line_of_business)))

instance : DecidableRel rowLe := fun a b => by unfold rowLe; infer_instance

/-- `create_fact_occupancy`: the full per-LOB fact table, or `none` when
step 4's merge_asof key validation aborts the run. -/
def create_fact_occupancy (inp : Inputs) : Option (List FactRow) :=
  (withFlags inp).map (List.insertionSort rowLe)

end PerLob

/-! ## `src/create_fact_occupancy_aggregated.py` (across lines of business) -/

namespace Agg

/-- A row of the `FactOccupancyAggregated` output table (no LOB columns). -/
structure FactRow where
  date_key : Int
  location_key : Int
  date : Int
  office_location : String
  year : Int
  month : Int
  is_weekend : Bool
  attendance_count : Nat
  deskcount : Option Int
  occupancy_rate : Option ℚ
  is_hybrid_day : Bool
deriving DecidableEq, Repr

/-- The (date, location, attendance) projection the classifier ranks on. -/
def toDayRecs (t : List FactRow) : List DayRec :=
  t.map fun r => ⟨r.date, r.office_location, r.attendance_count⟩

/-- Per-row effect of the aggregated `calculate_hybrid_day_flags` given the
whole table `t`. -/
def flagRow (t : List FactRow) (r : FactRow) : FactRow :=
  { r with
    year := yearOf r.date
    month := monthOf r.date
    is_hybrid_day :=
      decide (r.date ∈ top3 false (toDayRecs t) r.office_location (weekStart r.date))
        && eligibleDate (datesOf (toDayRecs t)) r.date }

/-- `calculate_hybrid_day_flags` of `create_fact_occupancy_aggregated.py`:
identical to the per-LOB one except that the selection admits zero-attendance
eligible dates (no `daily_total_attendance > 0` filter, lines 70–74). -/
def calculate_hybrid_day_flags (t : List FactRow) : List FactRow :=
  t.map (flagRow t)

/-- Join key of an attendance event in the aggregated builder (no LOB). -/
def occKey (e : OccRow) : Int × String :=
  (encodeDate e.logon_date, e.office_location)

/-- The coverage window `(first_occ_date, coverage_end)` of lines 153–163:
`coverage_end = min(last_occ_date, MonthEnd(latest_desk_date))`, or
`last_occ_date` when there is no deskcount. `none` when the occupancy table is
empty (NaT bounds make every between-comparison False). -/
def coverage (inp : Inputs) : Option (Int × Int) :=
  match (inp.occupancy.map (·.logon_date)).min?, (inp.occupancy.map (·.logon_date)).max? with
  | some fo, some lo =>
    some (fo,
      match (inp.deskcount.map (·.date)).max? with
      | some m => min lo (monthEnd m)
      | none => lo)
  | _, _ => none

/-- `occupancy_data[occupancy_data['logon_date'] <= coverage_end]`. -/
def occFiltered (inp : Inputs) : List OccRow :=
  inp.occupancy.filter fun e =>
    match coverage inp with
    | some c => decide (e.logon_date ≤ c.2)
    | none => false

/-- `dim_date[(date >= first_occ_date) & (date <= coverage_end)]`. -/
def dimDateFiltered (inp : Inputs) : List DateRow :=
  inp.dim_date.filter fun r =>
    match coverage inp with
    | some c => decide (c.1 ≤ r.date) && decide (r.date ≤ c.2)
    | none => false

/-- Steps 1–3: the cross join `dim_date × dim_location` with the attendance
count (aggregated across all LOBs) attached by the left join + `fillna(0)`. -/
def gridRow (inp : Inputs) (dr : DateRow) (lr : LocationRow) : FactRow :=
  { date_key := dr.date_key
    location_key := lr.location_key
    date := dr.date
    office_location := lr.office_location
    year := 0
    month := 0
    is_weekend := false
    attendance_count := lookupCount (groupCounts occKey (occFiltered inp))
      (dr.date_key, lr.office_location)
    deskcount := none
    occupancy_rate := none
    is_hybrid_day := false }

/-- The grid: one row per (date, location), row-major. -/
def grid (inp : Inputs) : List FactRow :=
  (dimDateFiltered inp).flatMap fun dr =>
    inp.dim_location.map fun lr => gridRow inp dr lr

/-- Per-row effect of step 4. -/
def capRow (inp : Inputs) (r : FactRow) : FactRow :=
  { r with deskcount :=
      match asofSnap inp.deskcount r.office_location r.date with
      | some s => s.deskcount
      | none => none }

/-- Step 4: sort by (date, office_location) (`kind='mergesort'`, stable) and
attach the as-of deskcount. -/
def withCapacity (inp : Inputs) : List FactRow :=
  (List.insertionSort
      (fun a b => a.date < b.date
        ∨ (a.date = b.date ∧ strLe a.office_location b.office_location)) (grid inp)).map
    (capRow inp)

/-- Per-row effect of step 5. -/
def rateRow (r : FactRow) : FactRow :=
  { r with occupancy_rate := occupancyRate r.attendance_count r.deskcount }

/-- Step 5: the occupancy rate column. -/
def withRate (inp : Inputs) : List FactRow :=
  (withCapacity inp).map rateRow

/-- Per-row effect of the weekend flag added after step 6. -/
def weekendRow (r : FactRow) : FactRow :=
  { r with is_weekend := decide (5 ≤ dow r.date) }

/-- Step 6: hybrid flags, then the weekend flag. -/
def withFlags (inp : Inputs) : List FactRow :=
  (calculate_hybrid_day_flags (withRate inp)).map weekendRow

/-- The sort key of step 7: (date_key, office_location). -/
def rowLe (a b : FactRow) : Prop :=
  a.date_key < b.date_key
    ∨ (a.date_key = b.date_key ∧ strLe a.office_location b.office_location)

instance : DecidableRel rowLe := fun a b => by unfold rowLe; infer_instance

/-- `create_fact_occupancy_aggregated`: the full aggregated fact table. -/
def create_fact_occupancy_aggregated (inp : Inputs) : List FactRow :=
  List.insertionSort rowLe (withFlags inp)

end Agg

/-! ## Basic lemmas -/

theorem dow_nonneg (d : Int) : 0 ≤ dow d := by unfold dow; omega

theorem dow_lt_seven (d : Int) : dow d < 7 := by unfold dow; omega

theorem weekStart_add_dow (d : Int) : weekStart d + dow d = d := by
  unfold weekStart; ring

theorem occupancyRate_eq_none_iff (att : Nat) (cap : Option Int) :
    occupancyRate att cap = none ↔ cap = none ∨ ∃ c, cap = some c ∧ c ≤ 0 := by
  cases cap with
  | none => simp [occupancyRate]
  | some c =>
    by_cases h : 0 < c <;> simp [occupancyRate, h] <;> omega

theorem occupancyRate_of_pos (att : Nat) (c : Int) (h : 0 < c) :
    occupancyRate att (some c) = some ((att : ℚ) / (c : ℚ)) := by
  simp only [occupancyRate, if_pos h]
  rw [Rat.mkRat_eq_div]
  congr 1
  rw [show ((c.toNat : ℕ) : ℚ) = ((c.toNat : ℤ) : ℚ) by push_cast; ring,
    Int.toNat_of_nonneg h.le]
  push_cast
  ring

theorem find?_pair_map {κ : Type} [DecidableEq κ] (g : κ → Nat) (ks : List κ) (k : κ) :
    ((ks.map fun x => (x, g x)).find? fun p => decide (p.1 = k))
      = (ks.find? fun x => decide (x = k)).map fun x => (x, g x) := by
  induction ks with
  | nil => simp
  | cons a t ih => by_cases h : a = k <;> simp [List.find?_cons, h, ih]

theorem find?_eq_self_of_mem {κ : Type} [DecidableEq κ] (ks : List κ) (k : κ) (h : k ∈ ks) :
    (ks.find? fun x => decide (x = k)) = some k := by
  induction ks with
  | nil => cases h
  | cons a t ih =>
    by_cases ha : a = k
    · subst ha; simp
    · rcases List.mem_cons.mp h with rfl | ht
      · exact absurd rfl ha
      · simp [List.find?_cons, ha, ih ht]

theorem lookupCount_groupCounts {α κ : Type} [DecidableEq κ] (key : α → κ)
    (l : List α) (k : κ) :
    lookupCount (groupCounts key l) k = l.countP fun a => decide (key a = k) := by
  unfold lookupCount groupCounts
  rw [find?_pair_map]
  by_cases hk : k ∈ (l.map key).dedup
  · rw [find?_eq_self_of_mem _ _ hk]
    simp
  · have hnone : ((l.map key).dedup.find? fun x => decide (x = k)) = none := by
      rw [List.find?_eq_none]
      intro x hx
      simp only [decide_eq_true_eq]
      intro hxk
      exact hk (hxk ▸ hx)
    rw [hnone]
    have : (l.countP fun a => decide (key a = k)) = 0 := by
      rw [List.countP_eq_zero]
      intro a ha
      simp only [decide_eq_true_eq]
      intro hak
      exact hk (List.mem_dedup.mpr (hak ▸ List.mem_map_of_mem key ha))
    simp [this]

theorem countP_key_eq_one {α κ : Type} [DecidableEq κ] (key : α → κ) (l : List α) (k : κ)
    (hnd : (l.map key).Nodup) (hmem : k ∈ l.map key) :
    (l.countP fun a => decide (key a = k)) = 1 := by
  induction l with
  | nil => simp at hmem
  | cons a t ih =>
    simp only [List.map_cons, List.nodup_cons] at hnd
    by_cases ha : key a = k
    · have hz : (t.countP fun x => decide (key x = k)) = 0 := by
        rw [List.countP_eq_zero]
        intro x hx
        simp only [decide_eq_true_eq]
        intro hxk
        exact hnd.1 (by rw [ha, ← hxk]; exact List.mem_map_of_mem key hx)
      simp [List.countP_cons, ha, hz]
    · have hmem' : k ∈ t.map key := by
        rcases List.mem_map.mp hmem with ⟨x, hx, hxk⟩
        rcases List.mem_cons.mp hx with rfl | hxt
        · exact absurd hxk ha
        · exact hxk ▸ List.mem_map_of_mem key hxt
      simp [List.countP_cons, ha, ih hnd.2 hmem']

theorem sum_map_eq_of_single {α : Type} (l : List α) (f : α → ℕ) (p : α → Bool) (n : ℕ)
    (h0 : ∀ a ∈ l, p a = false → f a = 0)
    (hv : ∀ a ∈ l, p a = true → f a = n)
    (hc : l.countP p = 1) :
    (l.map f).sum = n := by
  induction l with
  | nil => simp at hc
  | cons a t ih =>
    by_cases ha : p a = true
    · have hz : t.countP p = 0 := by
        have h1 : t.countP p + 1 = 1 := by simpa [List.countP_cons, ha] using hc
        omega
      have hsum : (t.map f).sum = 0 := by
        apply List.sum_eq_zero
        intro x hx
        rcases List.mem_map.mp hx with ⟨b, hb, rfl⟩
        exact h0 b (List.mem_cons_of_mem a hb)
          (by rcases List.countP_eq_zero.mp hz b hb with h; simpa using h)
      simp [hsum, hv a (List.mem_cons_self a t) ha]
    · have ha' : p a = false := by simpa using ha
      have hc' : t.countP p = 1 := by simpa [List.countP_cons, ha'] using hc
      simp [h0 a (List.mem_cons_self a t) ha',
        ih (fun x hx => h0 x (List.mem_cons_of_mem a hx))
           (fun x hx => hv x (List.mem_cons_of_mem a hx)) hc']

theorem pickLater_ne_none (acc : Option DeskRow) (s : DeskRow) : pickLater acc s ≠ none := by
  cases acc <;> simp [pickLater] <;> split <;> simp

theorem foldl_pickLater_eq_none_iff (L : List DeskRow) (acc : Option DeskRow) :
    L.foldl pickLater acc = none ↔ acc = none ∧ L = [] := by
  induction L generalizing acc with
  | nil => simp
  | cons s t ih =>
    simp only [List.foldl_cons, ih]
    constructor
    · rintro ⟨h, -⟩
      exact absurd h (pickLater_ne_none acc s)
    · rintro ⟨-, h⟩
      cases h

theorem foldl_pickLater_mem (L : List DeskRow) (acc : Option DeskRow) (a : DeskRow)
    (h : L.foldl pickLater acc = some a) : a ∈ L ∨ acc = some a := by
  induction L generalizing acc with
  | nil => right; simpa using h
  | cons s t ih =>
    rcases ih (pickLater acc s) (by simpa using h) with hmem | hacc
    · exact Or.inl (List.mem_cons_of_mem s hmem)
    · cases acc with
      | none =>
        simp [pickLater] at hacc
        exact Or.inl (hacc ▸ List.mem_cons_self s t)
      | some b =>
        by_cases hle : b.date ≤ s.date
        · simp [pickLater, hle] at hacc
          exact Or.inl (hacc ▸ List.mem_cons_self s t)
        · simp [pickLater, hle] at hacc
          exact Or.inr (by rw [hacc])

theorem foldl_pickLater_ge (L : List DeskRow) (acc : Option DeskRow) (a : DeskRow)
    (h : L.foldl pickLater acc = some a) :
    (∀ s ∈ L, s.date ≤ a.date) ∧ (∀ b, acc = some b → b.date ≤ a.date) := by
  induction L generalizing acc with
  | nil =>
    simp only [List.foldl_nil] at h
    exact ⟨by simp, fun b hb => by rw [hb] at h; cases h; exact le_refl _⟩
  | cons s t ih =>
    obtain ⟨h1, h2⟩ := ih (pickLater acc s) (by simpa using h)
    have hstep : ∃ c, pickLater acc s = some c ∧ s.date ≤ c.date ∧
        (∀ b, acc = some b → b.date ≤ c.date) := by
      cases acc with
      | none => exact ⟨s, by simp [pickLater], le_refl _, by simp⟩
      | some b =>
        by_cases hle : b.date ≤ s.date
        · exact ⟨s, by simp [pickLater, hle], le_refl _,
            fun b' hb' => by cases hb'; exact hle⟩
        · exact ⟨b, by simp [pickLater, hle], by omega,
            fun b' hb' => by cases hb'; exact le_refl _⟩
    obtain ⟨c, hc, hsc, hbc⟩ := hstep
    have hca : c.date ≤ a.date := h2 c hc
    constructor
    · intro x hx
      rcases List.mem_cons.mp hx with rfl | hxt
      · exact le_trans hsc hca
      · exact h1 x hxt
    · intro b hb
      exact le_trans (hbc b hb) hca

theorem asofSnap_eq_none_iff (snaps : List DeskRow) (loc : String) (d : Int) :
    asofSnap snaps loc d = none ↔
      ∀ s ∈ snaps, s.office_location = loc → ¬s.date ≤ d := by
  unfold asofSnap
  rw [foldl_pickLater_eq_none_iff]
  simp [List.filter_eq_nil_iff]

theorem asofSnap_spec (snaps : List DeskRow) (loc : String) (d : Int) (a : DeskRow)
    (h : asofSnap snaps loc d = some a) :
    a ∈ snaps ∧ a.office_location = loc ∧ a.date ≤ d ∧
      ∀ s ∈ snaps, s.office_location = loc → s.date ≤ d → s.date ≤ a.date := by
  unfold asofSnap at h
  rcases foldl_pickLater_mem _ _ _ h with hmem | hbad
  · have hf := List.mem_filter.mp hmem
    have hp : a.office_location = loc ∧ a.date ≤ d := by simpa using hf.2
    refine ⟨hf.1, hp.1, hp.2, fun s hs hsl hsd => ?_⟩
    exact (foldl_pickLater_ge _ _ _ h).1 s (List.mem_filter.mpr ⟨hs, by simp [hsl, hsd]⟩)
  · cases hbad

/-! ## Row-level characterization of the per-LOB pipeline -/

namespace PerLob

theorem mem_grid_iff (inp : Inputs) (g : FactRow) :
    g ∈ grid inp ↔ ∃ dr ∈ dimDateFiltered inp, ∃ lr ∈ inp.dim_location,
      ∃ br ∈ inp.dim_lob, g = gridRow inp dr lr br := by
  unfold grid
  simp only [List.mem_flatMap, List.mem_map]
  constructor
  · rintro ⟨dr, hdr, lr, hlr, br, hbr, rfl⟩
    exact ⟨dr, hdr, lr, hlr, br, hbr, rfl⟩
  · rintro ⟨dr, hdr, lr, hlr, br, hbr, rfl⟩
    exact ⟨dr, hdr, lr, hlr, br, hbr, rfl⟩

theorem create_eq_of_ok (inp : Inputs) (h : mergeAsofOk inp = true) :
    create_fact_occupancy inp
      = some (List.insertionSort rowLe
          ((calculate_hybrid_day_flags (withRateTable inp)).map weekendRow)) := by
  unfold create_fact_occupancy withFlags withRate withCapacity withRateTable
  rw [h]
  rfl

theorem create_eq_none_of_not_ok (inp : Inputs) (h : mergeAsofOk inp = false) :
    create_fact_occupancy inp = none := by
  unfold create_fact_occupancy withFlags withRate withCapacity
  rw [h]
  rfl

theorem create_some_iff (inp : Inputs) (out : List FactRow) :
    create_fact_occupancy inp = some out ↔
      mergeAsofOk inp = true ∧
      out = List.insertionSort rowLe
        ((calculate_hybrid_day_flags (withRateTable inp)).map weekendRow) := by
  cases hok : mergeAsofOk inp
  · rw [create_eq_none_of_not_ok inp hok]
    simp [hok]
  · rw [create_eq_of_ok inp hok]
    simp [hok, eq_comm]

theorem mem_withRateTable_iff (inp : Inputs) (r : FactRow) :
    r ∈ withRateTable inp ↔ ∃ g ∈ grid inp, r = rateRow (capRow inp g) := by
  unfold withRateTable sortedGrid
  rw [List.map_map]
  constructor
  · intro h
    rcases List.mem_map.mp h with ⟨g, hg, rfl⟩
    exact ⟨g, (List.perm_insertionSort _ _).mem_iff.mp hg, rfl⟩
  · rintro ⟨g, hg, rfl⟩
    exact List.mem_map.mpr ⟨g, (List.perm_insertionSort _ _).mem_iff.mpr hg, rfl⟩

theorem mem_create_iff (inp : Inputs) (out : List FactRow) (r : FactRow)
    (hout : create_fact_occupancy inp = some out) :
    r ∈ out ↔
      ∃ s ∈ withRateTable inp, r = weekendRow (flagRow (withRateTable inp) s) := by
  rcases (create_some_iff inp out).mp hout with ⟨-, rfl⟩
  unfold calculate_hybrid_day_flags
  rw [(List.perm_insertionSort _ _).mem_iff, List.map_map]
  constructor
  · intro h
    rcases List.mem_map.mp h with ⟨s, hs, rfl⟩
    exact ⟨s, hs, rfl⟩
  · rintro ⟨s, hs, rfl⟩
    exact List.mem_map.mpr ⟨s, hs, rfl⟩

theorem create_row_fields (inp : Inputs) (out : List FactRow) (r : FactRow)
    (hout : create_fact_occupancy inp = some out) (h : r ∈ out) :
    r.occupancy_rate = occupancyRate r.attendance_count r.deskcount ∧
    r.deskcount = (match asofSnap inp.deskcount r.office_location r.date with
                   | some s => s.deskcount
                   | none => none) ∧
    r.is_hybrid_day =
      (decide (r.date ∈ top3 true (toDayRecs (withRateTable inp)) r.office_location
          (weekStart r.date))
        && eligibleDate (datesOf (toDayRecs (withRateTable inp))) r.date) := by
  rcases (mem_create_iff inp out r hout).mp h with ⟨s, hs, rfl⟩
  rcases (mem_withRateTable_iff inp s).mp hs with ⟨g, hg, rfl⟩
  refine ⟨?_, ?_, ?_⟩ <;> simp [weekendRow, flagRow, rateRow, capRow]

theorem create_row_src (inp : Inputs) (out : List FactRow) (r : FactRow)
    (hout : create_fact_occupancy inp = some out) (h : r ∈ out) :
    ∃ dr ∈ dimDateFiltered inp, ∃ lr ∈ inp.dim_location, ∃ br ∈ inp.dim_lob,
      r.date_key = dr.date_key ∧ r.date = dr.date ∧
      r.office_location = lr.office_location ∧
      r.line_of_business = br.line_of_business ∧
      r.attendance_count = lookupCount (groupCounts occKey (occFiltered inp))
        (dr.date_key, lr.office_location, br.line_of_business) := by
  rcases (mem_create_iff inp out r hout).mp h with ⟨s, hs, rfl⟩
  rcases (mem_withRateTable_iff inp s).mp hs with ⟨g, hg, rfl⟩
  rcases (mem_grid_iff inp g).mp hg with ⟨dr, hdr, lr, hlr, br, hbr, rfl⟩
  exact ⟨dr, hdr, lr, hlr, br, hbr, rfl, rfl, rfl, rfl, rfl⟩

theorem toDayRecs_create_perm (inp : Inputs) (out : List FactRow)
    (hout : create_fact_occupancy inp = some out) :
    (toDayRecs out).Perm (toDayRecs (withRateTable inp)) := by
  rcases (create_some_iff inp out).mp hout with ⟨-, rfl⟩
  have hmap : toDayRecs ((calculate_hybrid_day_flags (withRateTable inp)).map weekendRow)
      = toDayRecs (withRateTable inp) := by
    unfold calculate_hybrid_day_flags toDayRecs
    rw [List.map_map, List.map_map]
    rfl
  rw [← hmap]
  exact (List.perm_insertionSort _ _).map _

end PerLob

/-! ## Row-level characterization of the aggregated pipeline -/

namespace Agg

theorem mem_grid_iff_agg (inp : Inputs) (g : FactRow) :
    g ∈ grid inp ↔ ∃ dr ∈ dimDateFiltered inp, ∃ lr ∈ inp.dim_location,
      g = gridRow inp dr lr := by
  unfold grid
  simp only [List.mem_flatMap, List.mem_map]
  constructor
  · rintro ⟨dr, hdr, lr, hlr, rfl⟩
    exact ⟨dr, hdr, lr, hlr, rfl⟩
  · rintro ⟨dr, hdr, lr, hlr, rfl⟩
    exact ⟨dr, hdr, lr, hlr, rfl⟩

theorem mem_withRate_iff_agg (inp : Inputs) (r : FactRow) :
    r ∈ withRate inp ↔ ∃ g ∈ grid inp, r = rateRow (capRow inp g) := by
  unfold withRate withCapacity
  rw [List.map_map]
  constructor
  · intro h
    rcases List.mem_map.mp h with ⟨g, hg, rfl⟩
    exact ⟨g, (List.perm_insertionSort _ _).mem_iff.mp hg, rfl⟩
  · rintro ⟨g, hg, rfl⟩
    exact List.mem_map.mpr ⟨g, (List.perm_insertionSort _ _).mem_iff.mpr hg, rfl⟩

theorem mem_create_iff_agg (inp : Inputs) (r : FactRow) :
    r ∈ create_fact_occupancy_aggregated inp ↔
      ∃ s ∈ withRate inp, r = weekendRow (flagRow (withRate inp) s) := by
  unfold create_fact_occupancy_aggregated withFlags calculate_hybrid_day_flags
  rw [(List.perm_insertionSort _ _).mem_iff, List.map_map]
  constructor
  · intro h
    rcases List.mem_map.mp h with ⟨s, hs, rfl⟩
    exact ⟨s, hs, rfl⟩
  · rintro ⟨s, hs, rfl⟩
    exact List.mem_map.mpr ⟨s, hs, rfl⟩

theorem create_row_fields_agg (inp : Inputs) (r : FactRow)
    (h : r ∈ create_fact_occupancy_aggregated inp) :
    r.occupancy_rate = occupancyRate r.attendance_count r.deskcount ∧
    r.deskcount = (match asofSnap inp.deskcount r.office_location r.date with
                   | some s => s.deskcount
                   | none => none) ∧
    r.is_hybrid_day =
      (decide (r.date ∈ top3 false (toDayRecs (withRate inp)) r.office_location
          (weekStart r.date))
        && eligibleDate (datesOf (toDayRecs (withRate inp))) r.date) := by
  rcases (mem_create_iff_agg inp r).mp h with ⟨s, hs, rfl⟩
  rcases (mem_withRate_iff_agg inp s).mp hs with ⟨g, hg, rfl⟩
  refine ⟨?_, ?_, ?_⟩ <;> simp [weekendRow, flagRow, rateRow, capRow]

theorem create_row_src_agg (inp : Inputs) (r : FactRow)
    (h : r ∈ create_fact_occupancy_aggregated inp) :
    ∃ dr ∈ dimDateFiltered inp, ∃ lr ∈ inp.dim_location,
      r.date_key = dr.date_key ∧ r.date = dr.date ∧
      r.office_location = lr.office_location ∧
      r.attendance_count = lookupCount (groupCounts occKey (occFiltered inp))
        (dr.date_key, lr.office_location) := by
  rcases (mem_create_iff_agg inp r).mp h with ⟨s, hs, rfl⟩
  rcases (mem_withRate_iff_agg inp s).mp hs with ⟨g, hg, rfl⟩
  rcases (mem_grid_iff_agg inp g).mp hg with ⟨dr, hdr, lr, hlr, rfl⟩
  exact ⟨dr, hdr, lr, hlr, rfl, rfl, rfl, rfl⟩

theorem toDayRecs_withFlags_agg (inp : Inputs) :
    toDayRecs (withFlags inp) = toDayRecs (withRate inp) := by
  unfold withFlags calculate_hybrid_day_flags toDayRecs
  rw [List.map_map, List.map_map]
  rfl

theorem toDayRecs_create_perm_agg (inp : Inputs) :
    (toDayRecs (create_fact_occupancy_aggregated inp)).Perm (toDayRecs (withRate inp)) := by
  unfold create_fact_occupancy_aggregated
  rw [← toDayRecs_withFlags_agg]
  exact (List.perm_insertionSort _ _).map _

end Agg

/-! ## The classifier is invariant under permutation of the table rows -/

theorem dailyTotal_perm {recs recs' : List DayRec} (h : recs.Perm recs')
    (loc : String) (d : Int) : dailyTotal recs loc d = dailyTotal recs' loc d := by
  unfold dailyTotal
  exact ((h.filter _).map _).sum_eq

theorem datesOf_perm {recs recs' : List DayRec} (h : recs.Perm recs') :
    (datesOf recs).Perm (datesOf recs') :=
  (h.map _).dedup

theorem weekdayCountMW_perm {dates dates' : List Int} (h : dates.Perm dates')
    (w m : Int) : weekdayCountMW dates w m = weekdayCountMW dates' w m := by
  unfold weekdayCountMW
  rw [← List.countP_eq_length_filter, ← List.countP_eq_length_filter]
  exact h.countP_eq _

theorem eligibleDate_perm {dates dates' : List Int} (h : dates.Perm dates')
    (d : Int) : eligibleDate dates d = eligibleDate dates' d := by
  unfold eligibleDate
  rw [weekdayCountMW_perm h]

theorem weekGroup_perm {recs recs' : List DayRec} (h : recs.Perm recs')
    (loc : String) (w : Int) : weekGroup recs loc w = weekGroup recs' loc w := by
  unfold weekGroup
  have hperm : ((((recs.filter fun p => decide (p.loc = loc)).map (·.date)).dedup.filter
        fun d => decide (weekStart d = w))).Perm
      ((((recs'.filter fun p => decide (p.loc = loc)).map (·.date)).dedup.filter
        fun d => decide (weekStart d = w))) :=
    (((h.filter _).map _).dedup).filter _
  have hsorted :
      List.insertionSort (· ≤ ·)
          ((((recs.filter fun p => decide (p.loc = loc)).map (·.date)).dedup.filter
            fun d => decide (weekStart d = w)))
        = List.insertionSort (· ≤ ·)
          ((((recs'.filter fun p => decide (p.loc = loc)).map (·.date)).dedup.filter
            fun d => decide (weekStart d = w))) := by
    apply List.eq_of_perm_of_sorted
      (((List.perm_insertionSort _ _).trans hperm).trans
        (List.perm_insertionSort _ _).symm)
      (List.sorted_insertionSort _ _) (List.sorted_insertionSort _ _)
  rw [hsorted]
  apply List.map_congr_left
  intro d _
  rw [dailyTotal_perm h]

theorem eligibleGroup_perm {recs recs' : List DayRec} (h : recs.Perm recs')
    (rp : Bool) (loc : String) (w : Int) :
    eligibleGroup rp recs loc w = eligibleGroup rp recs' loc w := by
  unfold eligibleGroup
  rw [weekGroup_perm h]
  apply List.filter_congr
  intro p _
  rw [eligibleDate_perm (datesOf_perm h)]

theorem top3_perm {recs recs' : List DayRec} (h : recs.Perm recs')
    (rp : Bool) (loc : String) (w : Int) :
    top3 rp recs loc w = top3 rp recs' loc w := by
  unfold top3 rankedGroup
  rw [eligibleGroup_perm h]

/-! ## Output-level flag characterization -/

theorem PerLob.flag_eq (inp : Inputs) (out : List PerLob.FactRow) (r : PerLob.FactRow)
    (hout : PerLob.create_fact_occupancy inp = some out) (h : r ∈ out) :
    r.is_hybrid_day =
      (decide (r.date ∈ top3 true (PerLob.toDayRecs out)
          r.office_location (weekStart r.date))
        && eligibleDate (datesOf (PerLob.toDayRecs out)) r.date) := by
  rw [(PerLob.create_row_fields inp out r hout h).2.2,
    top3_perm (PerLob.toDayRecs_create_perm inp out hout),
    eligibleDate_perm (datesOf_perm (PerLob.toDayRecs_create_perm inp out hout))]

theorem Agg.flag_eq_agg (inp : Inputs) (r : Agg.FactRow)
    (h : r ∈ Agg.create_fact_occupancy_aggregated inp) :
    r.is_hybrid_day =
      (decide (r.date ∈ top3 false
          (Agg.toDayRecs (Agg.create_fact_occupancy_aggregated inp))
          r.office_location (weekStart r.date))
        && eligibleDate
          (datesOf (Agg.toDayRecs (Agg.create_fact_occupancy_aggregated inp))) r.date) := by
  rw [(Agg.create_row_fields_agg inp r h).2.2,
    top3_perm (Agg.toDayRecs_create_perm_agg inp),
    eligibleDate_perm (datesOf_perm (Agg.toDayRecs_create_perm_agg inp))]

/-! ## Concrete inputs

Day numbers: 20241 = Monday 2025-06-02 … 20245 = Friday 2025-06-06, a full
working week inside one month, so all five dates are hybrid-eligible. -/

/-- One location, one line of business, a full five-day week, two events on
Monday and one on Thursday, and two capacity snapshots (4 desks from Monday,
5 desks from Thursday). -/
def exInp : Inputs :=
  { dim_date := [⟨20250602, 20241⟩, ⟨20250603, 20242⟩, ⟨20250604, 20243⟩,
      ⟨20250605, 20244⟩, ⟨20250606, 20245⟩]
    dim_location := [⟨1, "A"⟩]
    dim_lob := [⟨1, "X"⟩]
    occupancy := [⟨20241, "A", "X"⟩, ⟨20241, "A", "X"⟩, ⟨20244, "A", "X"⟩]
    deskcount := [⟨20241, "A", some 4⟩, ⟨20244, "A", some 5⟩] }

/-- The Monday output row of `exInp` in the per-LOB fact. -/
def exRowMonP : PerLob.FactRow :=
  { date_key := 20250602, location_key := 1, lob_key := 1, date := 20241,
    office_location := "A", line_of_business := "X", year := 2025, month := 6,
    is_weekend := false, attendance_count := 2, deskcount := some 4,
    occupancy_rate := some (mkRat 1 2), is_hybrid_day := true }

/-! ## Claim C4 -/

/-- Claim C4: in both fact variants, every output row's occupancy_rate is null
iff its capacity (deskcount) is null or ≤ 0, and otherwise equals
attendance_count divided by capacity; a missing or non-positive capacity is
never treated as zero capacity.  (The per-LOB conjunct ranges over the rows of
any table its builder actually emits — `some out`; on runs its merge_asof key
validation aborts, there are no rows.) -/
theorem claimC4_occupancy_null_policy (inp : Inputs) :
    (∀ out, PerLob.create_fact_occupancy inp = some out → ∀ r ∈ out,
      (r.occupancy_rate = none ↔
        r.deskcount = none ∨ ∃ c, r.deskcount = some c ∧ c ≤ 0) ∧
      (∀ c : Int, r.deskcount = some c → 0 < c →
        r.occupancy_rate = some ((r.attendance_count : ℚ) / (c : ℚ)))) ∧
    (∀ r ∈ Agg.create_fact_occupancy_aggregated inp,
      (r.occupancy_rate = none ↔
        r.deskcount = none ∨ ∃ c, r.deskcount = some c ∧ c ≤ 0) ∧
      (∀ c : Int, r.deskcount = some c → 0 < c →
        r.occupancy_rate = some ((r.attendance_count : ℚ) / (c : ℚ)))) := by
  constructor
  · intro out hout r h
    have hr := (PerLob.create_row_fields inp out r hout h).1
    rw [hr]
    exact ⟨occupancyRate_eq_none_iff _ _,
      fun c hc hpos => by rw [hc]; exact occupancyRate_of_pos _ _ hpos⟩
  · intro r h
    have hr := (Agg.create_row_fields_agg inp r h).1
    rw [hr]
    exact ⟨occupancyRate_eq_none_iff _ _,
      fun c hc hpos => by rw [hc]; exact occupancyRate_of_pos _ _ hpos⟩

/-- Witness for C4: evaluated on `exInp` (a completing per-LOB run), the
Monday row (2 attendees, 4 desks) gets rate 2/4. -/
theorem claimC4_witness :
    exRowMonP.occupancy_rate = some ((exRowMonP.attendance_count : ℚ) / ((4 : Int) : ℚ)) :=
  ((claimC4_occupancy_null_policy exInp).1 ((PerLob.create_fact_occupancy exInp).getD [])
    (by decide) exRowMonP (by decide)).2 4 (by decide) (by decide)

/-! ## Claim C10 -/

/-- Claim C10: `calculate_hybrid_day_flags` (either variant) returns a table
with the same number of rows, and for every row position the date_key,
location/lob keys, date, location, line of business, attendance_count,
deskcount and occupancy_rate are unchanged, while year and month are
recomputed from the row's date (is_hybrid_day is the only other column it
writes). -/
theorem claimC10_hybrid_flags_frame (tP : List PerLob.FactRow) (tA : List Agg.FactRow) :
    ((PerLob.calculate_hybrid_day_flags tP).length = tP.length
      ∧ (∀ i : ℕ,
        ((PerLob.calculate_hybrid_day_flags tP)[i]?).map (fun s =>
            (s.date_key, s.location_key, s.lob_key, s.date, s.office_location,
              s.line_of_business, s.attendance_count, s.deskcount, s.occupancy_rate))
          = (tP[i]?).map (fun r =>
            (r.date_key, r.location_key, r.lob_key, r.date, r.office_location,
              r.line_of_business, r.attendance_count, r.deskcount, r.occupancy_rate)))
      ∧ (∀ i : ℕ,
        ((PerLob.calculate_hybrid_day_flags tP)[i]?).map (fun s => (s.year, s.month))
          = (tP[i]?).map (fun r => (yearOf r.date, monthOf r.date))))
    ∧ ((Agg.calculate_hybrid_day_flags tA).length = tA.length
      ∧ (∀ i : ℕ,
        ((Agg.calculate_hybrid_day_flags tA)[i]?).map (fun s =>
            (s.date_key, s.location_key, s.date, s.office_location,
              s.attendance_count, s.deskcount, s.occupancy_rate))
          = (tA[i]?).map (fun r =>
            (r.date_key, r.location_key, r.date, r.office_location,
              r.attendance_count, r.deskcount, r.occupancy_rate)))
      ∧ (∀ i : ℕ,
        ((Agg.calculate_hybrid_day_flags tA)[i]?).map (fun s => (s.year, s.month))
          = (tA[i]?).map (fun r => (yearOf r.date, monthOf r.date)))) := by
  refine ⟨⟨?_, ?_, ?_⟩, ?_, ?_, ?_⟩
  · simp [PerLob.calculate_hybrid_day_flags]
  · intro i
    cases h : tP[i]? <;>
      simp [PerLob.calculate_hybrid_day_flags, List.getElem?_map, h, PerLob.flagRow]
  · intro i
    cases h : tP[i]? <;>
      simp [PerLob.calculate_hybrid_day_flags, List.getElem?_map, h, PerLob.flagRow]
  · simp [Agg.calculate_hybrid_day_flags]
  · intro i
    cases h : tA[i]? <;>
      simp [Agg.calculate_hybrid_day_flags, List.getElem?_map, h, Agg.flagRow]
  · intro i
    cases h : tA[i]? <;>
      simp [Agg.calculate_hybrid_day_flags, List.getElem?_map, h, Agg.flagRow]

/-! ## Claim C9 -/

/-- With an empty LOB dimension and everything else nonempty. -/
def exC9 : Inputs :=
  { dim_date := [⟨20250602, 20241⟩]
    dim_location := [⟨1, "A"⟩]
    dim_lob := []
    occupancy := [⟨20241, "A", "X"⟩]
    deskcount := [⟨20241, "A", some 3⟩] }

/-- With an empty location dimension and everything else nonempty. -/
def exC9b : Inputs :=
  { dim_date := [⟨20250602, 20241⟩]
    dim_location := []
    dim_lob := [⟨1, "X"⟩]
    occupancy := [⟨20241, "A", "X"⟩]
    deskcount := [⟨20241, "A", some 3⟩] }

/-- Empty LOB dimension, but a deskcount table spanning two locations whose
(office_location, date)-sorted date column steps back at the boundary
(A: 2025-06-02, 06-05; B: 06-03) — the shape on which `pd.merge_asof` raises
`right keys must be sorted` even though the left frame is empty. -/
def exC9desk : Inputs :=
  { dim_date := [⟨20250602, 20241⟩]
    dim_location := [⟨1, "A"⟩, ⟨2, "B"⟩]
    dim_lob := []
    occupancy := [⟨20241, "A", "X"⟩]
    deskcount := [⟨20241, "A", some 3⟩, ⟨20244, "A", some 4⟩, ⟨20242, "B", some 5⟩] }

/-- With an empty grid the left frame of step 4 is trivially sorted, so the
per-LOB run completes — with an empty table — exactly when the deskcount
frame also passes the validation. -/
theorem PerLob.create_eq_some_nil (inp : Inputs) (hg : grid inp = [])
    (hdesk : keysSorted ((sortedDesk inp).map (·.date)) = true) :
    create_fact_occupancy inp = some [] := by
  have hsg : sortedGrid inp = [] := by unfold sortedGrid; rw [hg]; rfl
  have hok : mergeAsofOk inp = true := by
    unfold mergeAsofOk
    rw [hsg, hdesk]
    rfl
  unfold create_fact_occupancy withFlags withRate withCapacity
  rw [hok, hsg]
  rfl

theorem Agg.create_eq_nil_of_grid_agg (inp : Inputs) (h : grid inp = []) :
    create_fact_occupancy_aggregated inp = [] := by
  unfold create_fact_occupancy_aggregated withFlags calculate_hybrid_day_flags
    withRate withCapacity
  rw [h]
  rfl

/-- Claim C9, counterexample: on `exC9` — date, location, occupancy and
deskcount all nonempty but `DimLineOfBusiness` empty — `create_fact_occupancy`
does not fail: the cross join is empty, step 4's validation passes (one
deskcount location), and the builder returns a zero-row table.  No
`EmptyDimension` error exists anywhere in the code. -/
theorem claimC9_counterexample : PerLob.create_fact_occupancy exC9 = some [] := by decide

/-- Claim C9, amended: an empty input dimension raises no `EmptyDimension`
error.  The aggregated builder always returns a zero-row table; the per-LOB
builder returns a zero-row table whenever its deskcount frame passes
merge_asof's sortedness validation — and when it does not (a multi-location
deskcount table with interleaved dates, as in `exC9desk`), the failure is
merge_asof's `ValueError: right keys must be sorted`, still not
`EmptyDimension`. -/
theorem claimC9_empty_dimension (inp : Inputs) :
    (inp.dim_date = [] ∨ inp.dim_location = [] →
      Agg.create_fact_occupancy_aggregated inp = []) ∧
    (inp.dim_date = [] ∨ inp.dim_location = [] ∨ inp.dim_lob = [] →
      keysSorted ((PerLob.sortedDesk inp).map (·.date)) = true →
      PerLob.create_fact_occupancy inp = some []) ∧
    PerLob.create_fact_occupancy exC9desk = none := by
  refine ⟨?_, ?_, by decide⟩
  · intro h
    apply Agg.create_eq_nil_of_grid_agg
    rcases h with h | h <;>
      simp [Agg.grid, Agg.dimDateFiltered, h]
  · intro h hdesk
    refine PerLob.create_eq_some_nil inp ?_ hdesk
    rcases h with h | h | h <;>
      simp [PerLob.grid, PerLob.dimDateFiltered, h]

/-- Witness for the amended C9 at a concrete input with an empty location
dimension: both builders return zero-row tables. -/
theorem claimC9_witness :
    Agg.create_fact_occupancy_aggregated exC9b = []
    ∧ PerLob.create_fact_occupancy exC9b = some [] :=
  ⟨(claimC9_empty_dimension exC9b).1 (Or.inr rfl),
   (claimC9_empty_dimension exC9b).2.1 (Or.inr (Or.inl rfl)) (by decide)⟩

/-! ## Claim C6 -/

/-- The Thursday output row of `exInp` in the per-LOB fact (after the second
capacity snapshot takes effect). -/
def exRowThuP : PerLob.FactRow :=
  { date_key := 20250605, location_key := 1, lob_key := 1, date := 20244,
    office_location := "A", line_of_business := "X", year := 2025, month := 6,
    is_weekend := false, attendance_count := 1, deskcount := some 5,
    occupancy_rate := some (mkRat 1 5), is_hybrid_day := true }

/-- Claim C6: in both variants, every output row's capacity is the deskcount
of the latest snapshot for its location dated ≤ the row's date — so with
snapshots at t1 < t2, rows with date in [t1, t2) carry the t1 value and rows
≥ t2 the t2 value — and rows strictly before the location's first snapshot
carry null (never a future value, never zero).  Snapshot rows are assumed
unique per (location, date), which the monthly deskcount extracts satisfy.
(The per-LOB conjunct ranges over the rows of any table its builder actually
emits; a run aborted by the merge_asof key validation emits none.) -/
theorem claimC6_asof_capacity (inp : Inputs)
    (huniq : ∀ s ∈ inp.deskcount, ∀ s2 ∈ inp.deskcount,
      s.office_location = s2.office_location → s.date = s2.date → s = s2) :
    (∀ out, PerLob.create_fact_occupancy inp = some out → ∀ r ∈ out,
      ((∀ s ∈ inp.deskcount, s.office_location = r.office_location → r.date < s.date) →
        r.deskcount = none) ∧
      (∀ s ∈ inp.deskcount, s.office_location = r.office_location → s.date ≤ r.date →
        (∀ s2 ∈ inp.deskcount, s2.office_location = r.office_location →
          s2.date ≤ r.date → s2.date ≤ s.date) →
        r.deskcount = s.deskcount)) ∧
    (∀ r ∈ Agg.create_fact_occupancy_aggregated inp,
      ((∀ s ∈ inp.deskcount, s.office_location = r.office_location → r.date < s.date) →
        r.deskcount = none) ∧
      (∀ s ∈ inp.deskcount, s.office_location = r.office_location → s.date ≤ r.date →
        (∀ s2 ∈ inp.deskcount, s2.office_location = r.office_location →
          s2.date ≤ r.date → s2.date ≤ s.date) →
        r.deskcount = s.deskcount)) := by
  have key : ∀ (loc : String) (d : Int),
      ((∀ s ∈ inp.deskcount, s.office_location = loc → d < s.date) →
        (match asofSnap inp.deskcount loc d with
         | some s => s.deskcount
         | none => none) = none) ∧
      (∀ s ∈ inp.deskcount, s.office_location = loc → s.date ≤ d →
        (∀ s2 ∈ inp.deskcount, s2.office_location = loc →
          s2.date ≤ d → s2.date ≤ s.date) →
        (match asofSnap inp.deskcount loc d with
         | some s => s.deskcount
         | none => none) = s.deskcount) := by
    intro loc d
    constructor
    · intro hnone
      have : asofSnap inp.deskcount loc d = none := by
        cases h : asofSnap inp.deskcount loc d with
        | none => rfl
        | some a =>
          obtain ⟨ha, hl, hd, -⟩ := asofSnap_spec _ _ _ _ h
          exact absurd hd (not_le.mpr (hnone a ha hl))
      simp [this]
    · intro s hs hl hd hmax
      cases h : asofSnap inp.deskcount loc d with
      | none =>
        exact absurd (fun s2 hs2 hl2 => (asofSnap_eq_none_iff _ _ _).mp h s2 hs2 hl2)
          (by push_neg; exact ⟨s, hs, hl, hd⟩)
      | some a =>
        obtain ⟨ha, hal, had, hge⟩ := asofSnap_spec _ _ _ _ h
        have h1 : s.date ≤ a.date := hge s hs hl hd
        have h2 : a.date ≤ s.date := hmax a ha hal had
        have : a = s := huniq a ha s hs (by rw [hal, hl]) (by omega)
        simp [this]
  constructor
  · intro out hout r hr
    have hdc := (PerLob.create_row_fields inp out r hout hr).2.1
    rw [hdc]
    exact key r.office_location r.date
  · intro r hr
    have hdc := (Agg.create_row_fields_agg inp r hr).2.1
    rw [hdc]
    exact key r.office_location r.date

/-- Witness for C6 at `exInp` (a completing per-LOB run): the Thursday row
(day 20244) carries the deskcount of the snapshot effective that same day
(5 desks), not the earlier 4-desk snapshot. -/
theorem claimC6_witness : exRowThuP.deskcount = some 5 :=
  ((claimC6_asof_capacity exInp (by decide)).1
      ((PerLob.create_fact_occupancy exInp).getD []) (by decide) exRowThuP (by decide)).2
    ⟨20244, "A", some 5⟩ (by decide) (by decide) (by decide) (by decide)

/-! ## Claim C3 -/

/-- Calendar-level eligibility quantity: how many of the five weekdays
(Monday..Friday) of `d`'s ISO week fall in `d`'s calendar month. -/
def monthWeekdayContribution (d : Int) : Nat :=
  (([weekStart d, weekStart d + 1, weekStart d + 2, weekStart d + 3,
      weekStart d + 4]).filter fun x => decide (monthOf x = monthOf d)).length

theorem eligibleDate_true_elim {dates : List Int} {d : Int}
    (h : eligibleDate dates d = true) :
    dow d < 5 ∧ 3 ≤ weekdayCountMW dates (weekStart d) (monthOf d) := by
  unfold eligibleDate at h
  simp only [Bool.and_eq_true, decide_eq_true_eq] at h
  exact h

theorem datesOf_nodup (recs : List DayRec) : (datesOf recs).Nodup :=
  List.nodup_dedup _

/-- The table-level weekday count of (week of `d`, month of `d`) never exceeds
the calendar-level contribution: the counted dates are distinct weekdays of
that week belonging to that month, of which the calendar has
`monthWeekdayContribution d`. -/
theorem weekdayCountMW_le_contribution (dates : List Int) (hnd : dates.Nodup) (d : Int) :
    weekdayCountMW dates (weekStart d) (monthOf d) ≤ monthWeekdayContribution d := by
  unfold weekdayCountMW monthWeekdayContribution
  apply le_trans (le_of_eq (List.toFinset_card_of_nodup (hnd.filter _)).symm)
  apply le_trans _ (List.toFinset_card_le _)
  apply Finset.card_le_card
  intro x hx
  rw [List.mem_toFinset] at hx ⊢
  have hmem := List.mem_filter.mp hx
  have hp := hmem.2
  simp only [Bool.and_eq_true, decide_eq_true_eq] at hp
  obtain ⟨⟨h5x, hwx⟩, hmx⟩ := hp
  apply List.mem_filter.mpr
  have hx5 : x = weekStart d + dow x := by
    rw [← hwx]
    have := weekStart_add_dow x
    omega
  have hdx : dow x = 0 ∨ dow x = 1 ∨ dow x = 2 ∨ dow x = 3 ∨ dow x = 4 := by
    have := dow_nonneg x
    omega
  constructor
  · rcases hdx with h | h | h | h | h <;> simp [List.mem_cons] <;> omega
  · simp [hmx]

/-- Claim C3: in both fact variants, a row flagged is_hybrid_day = true always
has an eligible date: a weekday (Mon–Fri) whose calendar month contributes at
least 3 weekday dates to the date's ISO week; no ineligible date is ever
flagged. -/
theorem claimC3_hybrid_eligibility_guard (inp : Inputs) :
    (∀ out, PerLob.create_fact_occupancy inp = some out →
      ∀ r ∈ out, r.is_hybrid_day = true →
      dow r.date < 5 ∧ 3 ≤ monthWeekdayContribution r.date) ∧
    (∀ r ∈ Agg.create_fact_occupancy_aggregated inp, r.is_hybrid_day = true →
      dow r.date < 5 ∧ 3 ≤ monthWeekdayContribution r.date) := by
  constructor
  · intro out hout r hr hflag
    have h := (PerLob.create_row_fields inp out r hout hr).2.2
    rw [hflag] at h
    have h' := h.symm
    simp only [Bool.and_eq_true] at h'
    obtain ⟨-, helig⟩ := h'
    obtain ⟨h5, hcnt⟩ := eligibleDate_true_elim helig
    exact ⟨h5, le_trans hcnt (weekdayCountMW_le_contribution _ (datesOf_nodup _) _)⟩
  · intro r hr hflag
    have h := (Agg.create_row_fields_agg inp r hr).2.2
    rw [hflag] at h
    have h' := h.symm
    simp only [Bool.and_eq_true] at h'
    obtain ⟨-, helig⟩ := h'
    obtain ⟨h5, hcnt⟩ := eligibleDate_true_elim helig
    exact ⟨h5, le_trans hcnt (weekdayCountMW_le_contribution _ (datesOf_nodup _) _)⟩

/-- Witness for C3 at `exInp`: the flagged Monday row is a weekday and June
2025 contributes all 5 weekdays to its week. -/
theorem claimC3_witness :
    dow exRowMonP.date < 5 ∧ 3 ≤ monthWeekdayContribution exRowMonP.date :=
  (claimC3_hybrid_eligibility_guard exInp).1
    ((PerLob.create_fact_occupancy exInp).getD []) (by decide) exRowMonP
    (by decide) (by decide)

/-! ## Claim C7 -/

/-- Inserting a pair whose date precedes every date of an attendance-ranked,
date-tie-broken list keeps the list ranked: insertion sort by attendance
descending is stable, so equal attendances stay in ascending date order. -/
theorem orderedInsert_attGe_pairwise (a : Int × Nat) (M : List (Int × Nat))
    (hM : M.Pairwise fun p q => q.2 < p.2 ∨ (p.2 = q.2 ∧ p.1 < q.1))
    (ha : ∀ p ∈ M, a.1 < p.1) :
    (List.orderedInsert (fun x y => y.2 ≤ x.2) a M).Pairwise
      (fun p q => q.2 < p.2 ∨ (p.2 = q.2 ∧ p.1 < q.1)) := by
  induction M with
  | nil => simp
  | cons b M ih =>
    by_cases hr : b.2 ≤ a.2
    · simp only [List.orderedInsert, if_pos hr]
      apply List.pairwise_cons.mpr
      refine ⟨?_, hM⟩
      intro q hq
      rcases List.mem_cons.mp hq with rfl | hq2
      · by_cases h2 : q.2 < a.2
        · exact Or.inl h2
        · exact Or.inr ⟨by omega, ha q (List.mem_cons_self q M)⟩
      · have hbq := (List.pairwise_cons.mp hM).1 q hq2
        by_cases h2 : q.2 < a.2
        · exact Or.inl h2
        · have hq2' : q.2 ≤ b.2 := by rcases hbq with h | h <;> omega
          exact Or.inr ⟨by omega, ha q (List.mem_cons_of_mem b hq2)⟩
    · simp only [List.orderedInsert, if_neg hr]
      apply List.pairwise_cons.mpr
      constructor
      · intro q hq
        rcases (List.mem_orderedInsert _).mp hq with rfl | hq2
        · exact Or.inl (by omega)
        · exact (List.pairwise_cons.mp hM).1 q hq2
      · exact ih (List.pairwise_cons.mp hM).2
          (fun p hp => ha p (List.mem_cons_of_mem b hp))

/-- Insertion-sorting a date-ascending list by attendance descending yields a
list ranked by attendance descending with ties in ascending date order. -/
theorem insertionSort_attGe_pairwise (l : List (Int × Nat))
    (hl : l.Pairwise fun p q => p.1 < q.1) :
    (List.insertionSort (fun x y => y.2 ≤ x.2) l).Pairwise
      (fun p q => q.2 < p.2 ∨ (p.2 = q.2 ∧ p.1 < q.1)) := by
  induction l with
  | nil => simp
  | cons a l ih =>
    simp only [List.insertionSort]
    apply orderedInsert_attGe_pairwise
    · exact ih (List.pairwise_cons.mp hl).2
    · intro p hp
      exact (List.pairwise_cons.mp hl).1 p ((List.perm_insertionSort _ l).subset hp)

/-- The candidate rows of one (location, week) group carry strictly ascending
dates (the group is built from the sorted distinct dates of the location). -/
theorem eligibleGroup_pairwise_fst (rp : Bool) (recs : List DayRec) (loc : String)
    (w : Int) : (eligibleGroup rp recs loc w).Pairwise fun p q => p.1 < q.1 := by
  unfold eligibleGroup weekGroup
  apply List.Pairwise.filter
  rw [List.pairwise_map]
  have hsorted : (List.insertionSort (· ≤ ·)
      (((recs.filter fun p => decide (p.loc = loc)).map (·.date)).dedup.filter fun d =>
        decide (weekStart d = w))).Sorted (· ≤ ·) :=
    List.sorted_insertionSort _ _
  have hnodup : (List.insertionSort (· ≤ ·)
      (((recs.filter fun p => decide (p.loc = loc)).map (·.date)).dedup.filter fun d =>
        decide (weekStart d = w))).Nodup :=
    ((List.perm_insertionSort _ _).nodup_iff).mpr ((List.nodup_dedup _).filter _)
  exact (hsorted.and hnodup).imp fun h => lt_of_le_of_ne h.1 h.2

/-- `rankedGroup` (any variant, any table) is ranked by daily total attendance
descending, ties broken by ascending date. -/
theorem rankedGroup_pairwise (rp : Bool) (recs : List DayRec) (loc : String) (w : Int) :
    (rankedGroup rp recs loc w).Pairwise
      (fun p q => q.2 < p.2 ∨ (p.2 = q.2 ∧ p.1 < q.1)) :=
  insertionSort_attGe_pairwise _ (eligibleGroup_pairwise_fst rp recs loc w)

/-- One location, one LOB, the full week 2025-06-02..06 with attendance
[10, 0, 0, 5, 3] on Mon..Fri (18 events), one capacity snapshot. -/
def exC7 : Inputs :=
  { dim_date := [⟨20250602, 20241⟩, ⟨20250603, 20242⟩, ⟨20250604, 20243⟩,
      ⟨20250605, 20244⟩, ⟨20250606, 20245⟩]
    dim_location := [⟨1, "A"⟩]
    dim_lob := [⟨1, "X"⟩]
    occupancy :=
      [⟨20241, "A", "X"⟩, ⟨20241, "A", "X"⟩, ⟨20241, "A", "X"⟩, ⟨20241, "A", "X"⟩,
       ⟨20241, "A", "X"⟩, ⟨20241, "A", "X"⟩, ⟨20241, "A", "X"⟩, ⟨20241, "A", "X"⟩,
       ⟨20241, "A", "X"⟩, ⟨20241, "A", "X"⟩,
       ⟨20244, "A", "X"⟩, ⟨20244, "A", "X"⟩, ⟨20244, "A", "X"⟩, ⟨20244, "A", "X"⟩,
       ⟨20244, "A", "X"⟩,
       ⟨20245, "A", "X"⟩, ⟨20245, "A", "X"⟩, ⟨20245, "A", "X"⟩]
    deskcount := [⟨20245, "A", some 100⟩] }

/-- Claim C7: candidates of a (location, ISO week) are ranked by daily total
attendance descending with ties among equal values broken by ascending date
(first conjunct — the ranked candidate list of either variant is pairwise so
ordered); concretely, for the 5-weekday week with attendance [10, 0, 0, 5, 3]
on Mon–Fri, the single-location per-LOB run completes and the flagged days of
both variants are exactly Monday, Thursday and Friday (the model is a pure
function of its input, so the selection is stable across runs). -/
theorem claimC7_ranking_ties :
    (∀ (rp : Bool) (recs : List DayRec) (loc : String) (w : Int),
      (rankedGroup rp recs loc w).Pairwise
        (fun p q => q.2 < p.2 ∨ (p.2 = q.2 ∧ p.1 < q.1))) ∧
    (PerLob.create_fact_occupancy exC7).map
        (fun t => (t.filter (fun r => r.is_hybrid_day)).map fun r => r.date)
      = some [20241, 20244, 20245] ∧
    ((Agg.create_fact_occupancy_aggregated exC7).filter (fun r => r.is_hybrid_day)).map
        (fun r => r.date) = [20241, 20244, 20245] :=
  ⟨fun rp recs loc w => rankedGroup_pairwise rp recs loc w, by decide, by decide⟩

/-! ## Cardinality of the selection -/

theorem nodup_subset_length_le {α : Type} [DecidableEq α] {l l' : List α}
    (hl : l.Nodup) (hsub : l ⊆ l') : l.length ≤ l'.length := by
  apply le_trans (le_of_eq (List.toFinset_card_of_nodup hl).symm)
  apply le_trans _ (List.toFinset_card_le l')
  exact Finset.card_le_card fun x hx => List.mem_toFinset.mpr (hsub (List.mem_toFinset.mp hx))

theorem length_eq_of_nodup_iff {α : Type} [DecidableEq α] {l l' : List α}
    (hl : l.Nodup) (hl' : l'.Nodup) (h : ∀ x, x ∈ l ↔ x ∈ l') :
    l.length = l'.length :=
  le_antisymm (nodup_subset_length_le hl fun x hx => (h x).mp hx)
    (nodup_subset_length_le hl' fun x hx => (h x).mpr hx)

/-- Everything `eligibleGroup` tells us about one of its members: it is a
(date, daily total) pair of a date on which the location has rows, lying in
week `w`, eligible, and (in the per-LOB variant) with positive total. -/
theorem eligibleGroup_mem_elim {rp : Bool} {recs : List DayRec} {loc : String}
    {w : Int} {p : Int × Nat} (hp : p ∈ eligibleGroup rp recs loc w) :
    (∃ rec ∈ recs, rec.loc = loc ∧ rec.date = p.1) ∧ weekStart p.1 = w ∧
      eligibleDate (datesOf recs) p.1 = true ∧ p.2 = dailyTotal recs loc p.1 ∧
      (rp = true → 0 < p.2) := by
  unfold eligibleGroup at hp
  have h1 := List.mem_filter.mp hp
  have hpred := h1.2
  simp only [Bool.and_eq_true, Bool.or_eq_true, Bool.not_eq_true', decide_eq_true_eq] at hpred
  have helig : eligibleDate (datesOf recs) p.1 = true := hpred.1
  have hpos : rp = true → 0 < p.2 := by
    intro hrp
    rcases hpred.2 with h | h
    · rw [hrp] at h; cases h
    · exact h
  have h2 := h1.1
  unfold weekGroup at h2
  rcases List.mem_map.mp h2 with ⟨d, hd, hdp⟩
  have hd' := (List.perm_insertionSort _ _).subset hd
  have hd2 := List.mem_filter.mp hd'
  have hw : weekStart d = w := of_decide_eq_true hd2.2
  rcases List.mem_map.mp (List.mem_dedup.mp hd2.1) with ⟨rec, hrec, hrecd⟩
  have hrec2 := List.mem_filter.mp hrec
  have hp1 : p.1 = d := by rw [← hdp]
  have hp2 : p.2 = dailyTotal recs loc d := by rw [← hdp]
  refine ⟨⟨rec, hrec2.1, of_decide_eq_true hrec2.2, by rw [hrecd, hp1]⟩, ?_, helig, ?_, hpos⟩
  · rw [hp1]; exact hw
  · rw [hp2, hp1]

theorem top3_mem_elim {rp : Bool} {recs : List DayRec} {loc : String} {w : Int}
    {d : Int} (hd : d ∈ top3 rp recs loc w) :
    ∃ p ∈ eligibleGroup rp recs loc w, p.1 = d := by
  unfold top3 rankedGroup at hd
  rcases List.mem_map.mp hd with ⟨p, hp, rfl⟩
  exact ⟨p, (List.perm_insertionSort _ _).subset (List.mem_of_mem_take hp), rfl⟩

theorem top3_nodup (rp : Bool) (recs : List DayRec) (loc : String) (w : Int) :
    (top3 rp recs loc w).Nodup := by
  have h1 : ((eligibleGroup rp recs loc w).map (·.1)).Pairwise (· < ·) :=
    List.pairwise_map.mpr (eligibleGroup_pairwise_fst rp recs loc w)
  have h2 : ((rankedGroup rp recs loc w).map (·.1)).Nodup := by
    unfold rankedGroup
    apply (((List.perm_insertionSort (fun a b : Int × Nat => b.2 ≤ a.2)
        (eligibleGroup rp recs loc w)).map (fun p : Int × Nat => p.1)).nodup_iff).mpr
    exact h1.imp fun h => ne_of_lt h
  exact h2.sublist ((List.take_sublist _ _).map _)

theorem top3_length (rp : Bool) (recs : List DayRec) (loc : String) (w : Int) :
    (top3 rp recs loc w).length = min 3 (eligibleGroup rp recs loc w).length := by
  unfold top3 rankedGroup
  rw [List.length_map, List.length_take, List.length_insertionSort]

/-- Membership in `top3` via the flag formula needs the converse too: every
candidate pair of a location-complete week is in `weekGroup`. -/
theorem weekGroup_mem_intro {recs : List DayRec} {loc : String} {d : Int}
    (h : ∃ rec ∈ recs, rec.loc = loc ∧ rec.date = d) :
    (d, dailyTotal recs loc d) ∈ weekGroup recs loc (weekStart d) := by
  unfold weekGroup
  apply List.mem_map.mpr
  refine ⟨d, ?_, rfl⟩
  apply (List.perm_insertionSort _ _).mem_iff.mpr
  apply List.mem_filter.mpr
  refine ⟨?_, by simp⟩
  apply List.mem_dedup.mpr
  rcases h with ⟨rec, hrec, hl, hd⟩
  apply List.mem_map.mpr
  exact ⟨rec, List.mem_filter.mpr ⟨hrec, by simp [hl]⟩, hd⟩

/-- Distinct dates of a (location, ISO week) flagged is_hybrid_day in a
per-LOB fact table. -/
def PerLob.flaggedDates (t : List PerLob.FactRow) (loc : String) (w : Int) : List Int :=
  ((t.filter fun r => decide (r.office_location = loc) && decide (weekStart r.date = w)
      && r.is_hybrid_day).map fun r => r.date).dedup

/-- Distinct dates of a (location, ISO week) flagged is_hybrid_day in an
aggregated fact table. -/
def Agg.flaggedDates (t : List Agg.FactRow) (loc : String) (w : Int) : List Int :=
  ((t.filter fun r => decide (r.office_location = loc) && decide (weekStart r.date = w)
      && r.is_hybrid_day).map fun r => r.date).dedup

/-- Number of eligible dates of week `w` among the table's dates. -/
def eligibleWeekCount (recs : List DayRec) (w : Int) : Nat :=
  ((datesOf recs).filter fun d =>
    decide (weekStart d = w) && eligibleDate (datesOf recs) d).length

/-- Number of eligible dates of week `w` with positive cross-LOB daily total
for `loc` among the table's dates. -/
def eligiblePosWeekCount (recs : List DayRec) (loc : String) (w : Int) : Nat :=
  ((datesOf recs).filter fun d =>
    decide (weekStart d = w) && eligibleDate (datesOf recs) d
      && decide (0 < dailyTotal recs loc d)).length

theorem PerLob.exists_row {t : List PerLob.FactRow} {rec : DayRec}
    (h : rec ∈ PerLob.toDayRecs t) :
    ∃ r ∈ t,
      r.date = rec.date ∧ r.office_location = rec.loc ∧ r.attendance_count = rec.att := by
  rcases List.mem_map.mp h with ⟨r, hr, hrec⟩
  exact ⟨r, hr, by rw [← hrec], by rw [← hrec], by rw [← hrec]⟩

theorem Agg.exists_row_agg {inp : Inputs} {rec : DayRec}
    (h : rec ∈ Agg.toDayRecs (Agg.create_fact_occupancy_aggregated inp)) :
    ∃ r ∈ Agg.create_fact_occupancy_aggregated inp,
      r.date = rec.date ∧ r.office_location = rec.loc ∧ r.attendance_count = rec.att := by
  rcases List.mem_map.mp h with ⟨r, hr, hrec⟩
  exact ⟨r, hr, by rw [← hrec], by rw [← hrec], by rw [← hrec]⟩

/-- The flagged dates of a (location, week) in the table of a completing
per-LOB run are exactly the `top3` selection of that group, so there are
`top3.length` of them. -/
theorem PerLob.flaggedDates_length (inp : Inputs) (out : List PerLob.FactRow)
    (loc : String) (w : Int) (hout : PerLob.create_fact_occupancy inp = some out) :
    (PerLob.flaggedDates out loc w).length
      = (top3 true (PerLob.toDayRecs out) loc w).length := by
  apply length_eq_of_nodup_iff (List.nodup_dedup _) (top3_nodup _ _ _ _)
  intro x
  constructor
  · intro hx
    rcases List.mem_map.mp (List.mem_dedup.mp hx) with ⟨r, hr, hrx⟩
    have hrf := List.mem_filter.mp hr
    have hp := hrf.2
    simp only [Bool.and_eq_true, decide_eq_true_eq] at hp
    obtain ⟨⟨hl, hw⟩, hf⟩ := hp
    have hflag := PerLob.flag_eq inp out r hout hrf.1
    rw [hf] at hflag
    have h' := hflag.symm
    simp only [Bool.and_eq_true, decide_eq_true_eq] at h'
    rcases h' with ⟨hmem, -⟩
    rw [hl, hw] at hmem
    rw [← hrx]
    exact hmem
  · intro hd
    rcases top3_mem_elim hd with ⟨p, hp, hpd⟩
    obtain ⟨⟨rec, hrecmem, hrecloc, hrecdate⟩, hw, helig, -, -⟩ := eligibleGroup_mem_elim hp
    rcases PerLob.exists_row hrecmem with ⟨r, hrout, hrd, hrl, -⟩
    have hrdx : r.date = x := by rw [hrd, hrecdate, hpd]
    have hrlx : r.office_location = loc := by rw [hrl, hrecloc]
    have hrw : weekStart r.date = w := by rw [hrdx, ← hpd]; exact hw
    have hflag : r.is_hybrid_day = true := by
      rw [PerLob.flag_eq inp out r hout hrout]
      simp only [Bool.and_eq_true, decide_eq_true_eq]
      constructor
      · rw [hrlx, hrw, hrdx]
        exact hd
      · rw [hrdx, ← hpd]
        exact helig
    apply List.mem_dedup.mpr
    apply List.mem_map.mpr
    exact ⟨r, List.mem_filter.mpr ⟨hrout, by simp [hrlx, hrw, hflag]⟩, hrdx⟩

/-- Aggregated-variant twin of `PerLob.flaggedDates_length`. -/
theorem Agg.flaggedDates_length_agg (inp : Inputs) (loc : String) (w : Int) :
    (Agg.flaggedDates (Agg.create_fact_occupancy_aggregated inp) loc w).length
      = (top3 false (Agg.toDayRecs (Agg.create_fact_occupancy_aggregated inp)) loc w).length := by
  apply length_eq_of_nodup_iff (List.nodup_dedup _) (top3_nodup _ _ _ _)
  intro x
  constructor
  · intro hx
    rcases List.mem_map.mp (List.mem_dedup.mp hx) with ⟨r, hr, hrx⟩
    have hrf := List.mem_filter.mp hr
    have hp := hrf.2
    simp only [Bool.and_eq_true, decide_eq_true_eq] at hp
    obtain ⟨⟨hl, hw⟩, hf⟩ := hp
    have hflag := Agg.flag_eq_agg inp r hrf.1
    rw [hf] at hflag
    have h' := hflag.symm
    simp only [Bool.and_eq_true, decide_eq_true_eq] at h'
    rcases h' with ⟨hmem, -⟩
    rw [hl, hw] at hmem
    rw [← hrx]
    exact hmem
  · intro hd
    rcases top3_mem_elim hd with ⟨p, hp, hpd⟩
    obtain ⟨⟨rec, hrecmem, hrecloc, hrecdate⟩, hw, helig, -, -⟩ := eligibleGroup_mem_elim hp
    rcases Agg.exists_row_agg hrecmem with ⟨r, hrout, hrd, hrl, -⟩
    have hrdx : r.date = x := by rw [hrd, hrecdate, hpd]
    have hrlx : r.office_location = loc := by rw [hrl, hrecloc]
    have hrw : weekStart r.date = w := by rw [hrdx, ← hpd]; exact hw
    have hflag : r.is_hybrid_day = true := by
      rw [Agg.flag_eq_agg inp r hrout]
      simp only [Bool.and_eq_true, decide_eq_true_eq]
      constructor
      · rw [hrlx, hrw, hrdx]
        exact hd
      · rw [hrdx, ← hpd]
        exact helig
    apply List.mem_dedup.mpr
    apply List.mem_map.mpr
    exact ⟨r, List.mem_filter.mpr ⟨hrout, by simp [hrlx, hrw, hflag]⟩, hrdx⟩

theorem countP_eq_of_nodup_set_iff {α : Type} [DecidableEq α] {l l' : List α}
    (hl : l.Nodup) (hl' : l'.Nodup) (h : ∀ x, x ∈ l ↔ x ∈ l') (p : α → Bool) :
    l.countP p = l'.countP p := by
  rw [List.countP_eq_length_filter, List.countP_eq_length_filter]
  apply length_eq_of_nodup_iff (hl.filter _) (hl'.filter _)
  intro x
  simp only [List.mem_filter]
  constructor
  · rintro ⟨h1, h2⟩
    exact ⟨(h x).mp h1, h2⟩
  · rintro ⟨h1, h2⟩
    exact ⟨(h x).mpr h1, h2⟩

/-- When the location has a row on every table date (grid completeness), the
candidate count of its (location, week) group is a count over the table's
distinct dates. -/
theorem eligibleGroup_length_eq (rp : Bool) (recs : List DayRec) (loc : String) (w : Int)
    (hcomp : ∀ d ∈ datesOf recs, ∃ p ∈ recs, p.loc = loc ∧ p.date = d) :
    (eligibleGroup rp recs loc w).length
      = ((datesOf recs).filter fun d =>
          decide (weekStart d = w) && (eligibleDate (datesOf recs) d
            && (!rp || decide (0 < dailyTotal recs loc d)))).length := by
  unfold eligibleGroup weekGroup
  rw [List.filter_map, List.length_map]
  rw [← List.countP_eq_length_filter, ← List.countP_eq_length_filter]
  rw [(List.perm_insertionSort _ _).countP_eq]
  rw [List.countP_filter]
  have hset : ∀ x, x ∈ ((recs.filter fun p => decide (p.loc = loc)).map (·.date)).dedup
      ↔ x ∈ datesOf recs := by
    intro x
    constructor
    · intro hx
      rcases List.mem_map.mp (List.mem_dedup.mp hx) with ⟨rec, hrec, hx'⟩
      exact List.mem_dedup.mpr (hx' ▸ List.mem_map_of_mem _ ((List.mem_filter.mp hrec).1))
    · intro hx
      rcases hcomp x hx with ⟨p, hp, hpl, hpd⟩
      exact List.mem_dedup.mpr
        (List.mem_map.mpr ⟨p, List.mem_filter.mpr ⟨hp, by simp [hpl]⟩, hpd⟩)
  rw [countP_eq_of_nodup_set_iff (List.nodup_dedup _) (datesOf_nodup recs) hset]
  apply List.countP_congr
  intro x hx
  simp only [Function.comp_apply, Bool.and_eq_true, decide_eq_true_eq]
  tauto

theorem eligibleGroup_length_eq_agg (recs : List DayRec) (loc : String) (w : Int)
    (hcomp : ∀ d ∈ datesOf recs, ∃ p ∈ recs, p.loc = loc ∧ p.date = d) :
    (eligibleGroup false recs loc w).length = eligibleWeekCount recs w := by
  rw [eligibleGroup_length_eq false recs loc w hcomp]
  unfold eligibleWeekCount
  congr 1
  apply List.filter_congr
  intro x hx
  simp

theorem eligibleGroup_length_eq_pos (recs : List DayRec) (loc : String) (w : Int)
    (hcomp : ∀ d ∈ datesOf recs, ∃ p ∈ recs, p.loc = loc ∧ p.date = d) :
    (eligibleGroup true recs loc w).length = eligiblePosWeekCount recs loc w := by
  rw [eligibleGroup_length_eq true recs loc w hcomp]
  unfold eligiblePosWeekCount
  congr 1
  apply List.filter_congr
  intro x hx
  simp [Bool.and_assoc]

/-! ## Claims C1 and C2 -/

/-- Three eligible weekdays (2025-06-02..04), no attendance at all, one
capacity snapshot. -/
def exC1 : Inputs :=
  { dim_date := [⟨20250602, 20241⟩, ⟨20250603, 20242⟩, ⟨20250604, 20243⟩]
    dim_location := [⟨1, "A"⟩]
    dim_lob := [⟨1, "X"⟩]
    occupancy := []
    deskcount := [⟨20243, "A", some 10⟩] }

/-- Three eligible weekdays with attendance [1, 0, 1] on Mon/Tue/Wed. -/
def exFlags : Inputs :=
  { dim_date := [⟨20250602, 20241⟩, ⟨20250603, 20242⟩, ⟨20250604, 20243⟩]
    dim_location := [⟨1, "A"⟩]
    dim_lob := [⟨1, "X"⟩]
    occupancy := [⟨20241, "A", "X"⟩, ⟨20243, "A", "X"⟩]
    deskcount := [⟨20243, "A", some 5⟩] }

/-- Claim C1, counterexample: `exC1` is a single-location input, so its
per-LOB run completes; in the resulting fact the week of 2025-06-02 has 3
eligible dates for location "A", yet no date at all is flagged — the per-LOB
selection drops zero-attendance candidates, so a week with ≥ 3 eligible dates
need not get 3 flags. -/
theorem claimC1_counterexample :
    (PerLob.create_fact_occupancy exC1).isSome = true
      ∧ eligibleWeekCount
          (PerLob.toDayRecs ((PerLob.create_fact_occupancy exC1).getD [])) 20241 = 3
      ∧ (PerLob.flaggedDates ((PerLob.create_fact_occupancy exC1).getD [])
          "A" 20241).length = 0 := by
  decide

/-- Claim C1, amended: per (location, ISO week), the aggregated fact flags
exactly min(3, k) distinct dates where k is the number of eligible dates of
that week; and the per-LOB fact — on any run that completes, i.e. that passes
step 4's merge_asof key validation and emits a table at all — flags exactly
min(3, k⁺) distinct dates where k⁺ additionally requires a positive cross-LOB
daily total.  (Hypotheses: the location has a row on every date of the table,
which the grid guarantees for every location of the dimension.) -/
theorem claimC1_hybrid_cardinality (inp : Inputs) (loc : String) (w : Int)
    (outP : List PerLob.FactRow)
    (houtP : PerLob.create_fact_occupancy inp = some outP)
    (hP : ∀ d ∈ datesOf (PerLob.toDayRecs outP),
      ∃ p ∈ PerLob.toDayRecs outP, p.loc = loc ∧ p.date = d)
    (hA : ∀ d ∈ datesOf (Agg.toDayRecs (Agg.create_fact_occupancy_aggregated inp)),
      ∃ p ∈ Agg.toDayRecs (Agg.create_fact_occupancy_aggregated inp),
        p.loc = loc ∧ p.date = d) :
    (PerLob.flaggedDates outP loc w).length
      = min 3 (eligiblePosWeekCount (PerLob.toDayRecs outP) loc w)
    ∧ (Agg.flaggedDates (Agg.create_fact_occupancy_aggregated inp) loc w).length
      = min 3 (eligibleWeekCount
          (Agg.toDayRecs (Agg.create_fact_occupancy_aggregated inp)) w) := by
  constructor
  · rw [PerLob.flaggedDates_length inp outP loc w houtP, top3_length,
      eligibleGroup_length_eq_pos _ _ _ hP]
  · rw [Agg.flaggedDates_length_agg inp loc w, top3_length,
      eligibleGroup_length_eq_agg _ _ _ hA]

/-- Witness for the amended C1 at `exInp` (a completing single-location
per-LOB run; attendance [2,0,0,1] on the four covered days): the per-LOB fact
flags min(3,2) = 2 dates, the aggregated fact flags min(3,4) = 3. -/
theorem claimC1_witness :
    (PerLob.flaggedDates ((PerLob.create_fact_occupancy exInp).getD []) "A" 20241).length
      = min 3 (eligiblePosWeekCount
          (PerLob.toDayRecs ((PerLob.create_fact_occupancy exInp).getD [])) "A" 20241)
    ∧ (Agg.flaggedDates (Agg.create_fact_occupancy_aggregated exInp) "A" 20241).length
      = min 3 (eligibleWeekCount
          (Agg.toDayRecs (Agg.create_fact_occupancy_aggregated exInp)) 20241) :=
  claimC1_hybrid_cardinality exInp "A" 20241
    ((PerLob.create_fact_occupancy exInp).getD []) (by decide) (by decide) (by decide)

/-- Claim C2, counterexample: in the per-LOB fact built from `exFlags` only 2
of the 3 eligible dates of the week have positive attendance, yet the
zero-attendance eligible Tuesday (day 20242) is NOT selected: the per-LOB
variant requires `daily_total_attendance > 0` and flags only Monday and
Wednesday. -/
theorem claimC2_counterexample :
    (PerLob.create_fact_occupancy exFlags).isSome = true
    ∧ eligibleWeekCount
        (PerLob.toDayRecs ((PerLob.create_fact_occupancy exFlags).getD [])) 20241 = 3
    ∧ eligiblePosWeekCount
        (PerLob.toDayRecs ((PerLob.create_fact_occupancy exFlags).getD [])) "A" 20241 = 2
    ∧ eligibleDate
        (datesOf (PerLob.toDayRecs ((PerLob.create_fact_occupancy exFlags).getD [])))
        20242 = true
    ∧ dailyTotal (PerLob.toDayRecs ((PerLob.create_fact_occupancy exFlags).getD []))
        "A" 20242 = 0
    ∧ PerLob.flaggedDates ((PerLob.create_fact_occupancy exFlags).getD []) "A" 20241
        = [20241, 20243] := by
  decide

/-- Claim C2, amended: only the aggregated variant admits zero-attendance
eligible dates: there, every eligible date of a week with at most 3 candidates
is flagged no matter its attendance (first conjunct); in the per-LOB variant a
flagged date always has positive cross-LOB daily attendance (second conjunct,
ranging over the rows of any table the per-LOB builder actually emits). -/
theorem claimC2_zero_attendance_candidates (inp : Inputs) :
    (∀ r ∈ Agg.create_fact_occupancy_aggregated inp,
      eligibleDate (datesOf (Agg.toDayRecs (Agg.create_fact_occupancy_aggregated inp)))
          r.date = true →
      (eligibleGroup false (Agg.toDayRecs (Agg.create_fact_occupancy_aggregated inp))
          r.office_location (weekStart r.date)).length ≤ 3 →
      r.is_hybrid_day = true) ∧
    (∀ out, PerLob.create_fact_occupancy inp = some out →
      ∀ r ∈ out, r.is_hybrid_day = true →
      0 < dailyTotal (PerLob.toDayRecs out) r.office_location r.date) := by
  constructor
  · intro r hr helig hlen
    have hrec : (⟨r.date, r.office_location, r.attendance_count⟩ : DayRec)
        ∈ Agg.toDayRecs (Agg.create_fact_occupancy_aggregated inp) :=
      List.mem_map.mpr ⟨r, hr, rfl⟩
    have hwg := @weekGroup_mem_intro
      (Agg.toDayRecs (Agg.create_fact_occupancy_aggregated inp))
      r.office_location r.date ⟨_, hrec, rfl, rfl⟩
    have heg : (r.date, dailyTotal (Agg.toDayRecs (Agg.create_fact_occupancy_aggregated inp))
        r.office_location r.date) ∈ eligibleGroup false
          (Agg.toDayRecs (Agg.create_fact_occupancy_aggregated inp))
          r.office_location (weekStart r.date) :=
      List.mem_filter.mpr ⟨hwg, by simp [helig]⟩
    have htop : r.date ∈ top3 false
        (Agg.toDayRecs (Agg.create_fact_occupancy_aggregated inp))
        r.office_location (weekStart r.date) := by
      unfold top3
      have hranked : (r.date, dailyTotal
          (Agg.toDayRecs (Agg.create_fact_occupancy_aggregated inp))
          r.office_location r.date) ∈ rankedGroup false
            (Agg.toDayRecs (Agg.create_fact_occupancy_aggregated inp))
            r.office_location (weekStart r.date) := by
        unfold rankedGroup
        exact (List.perm_insertionSort _ _).mem_iff.mpr heg
      have hlen' : (rankedGroup false
          (Agg.toDayRecs (Agg.create_fact_occupancy_aggregated inp))
          r.office_location (weekStart r.date)).length ≤ 3 := by
        unfold rankedGroup
        rw [List.length_insertionSort]
        exact hlen
      rw [List.take_of_length_le hlen']
      exact List.mem_map.mpr ⟨_, hranked, rfl⟩
    rw [Agg.flag_eq_agg inp r hr]
    simp [htop, helig]
  · intro out hout r hr hflag
    have hflag' := PerLob.flag_eq inp out r hout hr
    rw [hflag] at hflag'
    have h' := hflag'.symm
    simp only [Bool.and_eq_true, decide_eq_true_eq] at h'
    rcases h' with ⟨hmem, -⟩
    rcases top3_mem_elim hmem with ⟨p, hp, hpd⟩
    obtain ⟨-, -, -, hdt, hpos⟩ := eligibleGroup_mem_elim hp
    have := hpos rfl
    rw [hdt, hpd] at this
    exact this

/-- The zero-attendance Tuesday row of the aggregated fact built from
`exFlags`. -/
def exRowTueA : Agg.FactRow :=
  { date_key := 20250603, location_key := 1, date := 20242,
    office_location := "A", year := 2025, month := 6, is_weekend := false,
    attendance_count := 0, deskcount := none, occupancy_rate := none,
    is_hybrid_day := true }

/-- Witness for the amended C2: on `exFlags` the aggregated variant flags the
eligible zero-attendance Tuesday. -/
theorem claimC2_witness : exRowTueA.is_hybrid_day = true :=
  (claimC2_zero_attendance_candidates exFlags).1 exRowTueA (by decide) (by decide)
    (by decide)

/-! ## Claim C5 -/

/-- Row counts of a completing per-LOB run's table equal row counts of
`withRateTable` for any predicate invariant under the flag/weekend column
updates. -/
theorem PerLob.countP_create_withRateTable (inp : Inputs) (out : List PerLob.FactRow)
    (p : PerLob.FactRow → Bool)
    (hout : PerLob.create_fact_occupancy inp = some out)
    (h1 : ∀ (t : List PerLob.FactRow) (r : PerLob.FactRow),
      p (PerLob.weekendRow (PerLob.flagRow t r)) = p r) :
    out.countP p = (PerLob.withRateTable inp).countP p := by
  rcases (PerLob.create_some_iff inp out).mp hout with ⟨-, rfl⟩
  unfold calculate_hybrid_day_flags
  rw [(List.perm_insertionSort _ _).countP_eq, List.countP_map, List.countP_map]
  apply List.countP_congr
  intro r hr
  simp only [Function.comp_apply, h1]

/-- Likewise from `withRateTable` down to the grid, for predicates invariant
under the capacity and rate column updates. -/
theorem PerLob.countP_withRateTable_grid (inp : Inputs) (p : PerLob.FactRow → Bool)
    (h2 : ∀ r : PerLob.FactRow, p (PerLob.rateRow (PerLob.capRow inp r)) = p r) :
    (PerLob.withRateTable inp).countP p = (PerLob.grid inp).countP p := by
  unfold withRateTable sortedGrid
  rw [List.countP_map, List.countP_map, (List.perm_insertionSort _ _).countP_eq]
  apply List.countP_congr
  intro r hr
  simp only [Function.comp_apply, h2]

/-- The intended grid completeness does hold on every run the per-LOB builder
completes: with well-formed dimensions (distinct natural keys, date_key the
YYYYMMDD encoding of date — which create_dim_date.py guarantees — and the
encoding separating the occurring dates, a property of the calendar), every
(date of the covered horizon, location, line of business) combination appears
in exactly one row of the emitted table, with attendance_count the number of
matching attendance events — 0 when there are none, never null. -/
theorem PerLob.grid_completeness_on_success (inp : Inputs)
    (out : List PerLob.FactRow)
    (hout : PerLob.create_fact_occupancy inp = some out)
    (hdd : (inp.dim_date.map (·.date)).Nodup)
    (hdl : (inp.dim_location.map (·.office_location)).Nodup)
    (hdb : (inp.dim_lob.map (·.line_of_business)).Nodup)
    (hkey : ∀ dr ∈ inp.dim_date, dr.date_key = encodeDate dr.date)
    (hinj : ∀ e ∈ inp.occupancy, ∀ dr ∈ inp.dim_date,
      encodeDate e.logon_date = encodeDate dr.date → e.logon_date = dr.date)
    (d : Int) (l b : String)
    (hd : d ∈ (PerLob.dimDateFiltered inp).map (·.date))
    (hl : l ∈ inp.dim_location.map (·.office_location))
    (hb : b ∈ inp.dim_lob.map (·.line_of_business)) :
    (out.countP fun r =>
      decide (r.date = d) && decide (r.office_location = l)
        && decide (r.line_of_business = b)) = 1
    ∧ ∀ r ∈ out,
        r.date = d → r.office_location = l → r.line_of_business = b →
        r.attendance_count = inp.occupancy.countP fun e =>
          decide (e.logon_date = d) && decide (e.office_location = l)
            && decide (e.line_of_business = b) := by
  have hhorizon : ∃ m, PerLob.latestDeskDate inp = some m ∧ d ≤ m := by
    rcases List.mem_map.mp hd with ⟨dr, hdr, hdrd⟩
    have hpred := (List.mem_filter.mp hdr).2
    cases hm : PerLob.latestDeskDate inp with
    | none =>
      rw [hm] at hpred
      cases hpred
    | some m =>
      rw [hm] at hpred
      exact ⟨m, rfl, hdrd ▸ of_decide_eq_true hpred⟩
  constructor
  · rw [PerLob.countP_create_withRateTable inp out
      (fun r => decide (r.date = d) && decide (r.office_location = l)
        && decide (r.line_of_business = b)) hout (fun t r => rfl)]
    rw [PerLob.countP_withRateTable_grid inp
      (fun r => decide (r.date = d) && decide (r.office_location = l)
        && decide (r.line_of_business = b)) (fun r => rfl)]
    unfold PerLob.grid
    rw [List.countP_flatMap]
    apply sum_map_eq_of_single _ _ (fun dr => decide (dr.date = d))
    · intro dr hdr hdrd
      simp only [Function.comp_apply]
      rw [List.countP_eq_zero]
      intro g hg
      rcases List.mem_flatMap.mp hg with ⟨lr, hlr, hg2⟩
      rcases List.mem_map.mp hg2 with ⟨br, hbr, rfl⟩
      simp only [PerLob.gridRow, Bool.and_eq_true, decide_eq_true_eq]
      rintro ⟨⟨hgd, -⟩, -⟩
      simp only [decide_eq_false_iff_not] at hdrd
      exact hdrd hgd
    · intro dr hdr hdrd
      simp only [Function.comp_apply]
      rw [List.countP_flatMap]
      apply sum_map_eq_of_single _ _ (fun lr => decide (lr.office_location = l))
      · intro lr hlr hlrl
        simp only [Function.comp_apply]
        rw [List.countP_eq_zero]
        intro g hg
        rcases List.mem_map.mp hg with ⟨br, hbr, rfl⟩
        simp only [PerLob.gridRow, Bool.and_eq_true, decide_eq_true_eq]
        rintro ⟨⟨-, hgl⟩, -⟩
        simp only [decide_eq_false_iff_not] at hlrl
        exact hlrl hgl
      · intro lr hlr hlrl
        simp only [Function.comp_apply]
        rw [List.countP_map]
        have hcongr : ((fun r => decide (r.date = d) && decide (r.office_location = l)
              && decide (r.line_of_business = b)) ∘ PerLob.gridRow inp dr lr)
            = fun br => decide (br.line_of_business = b) := by
          funext br
          simp only [Function.comp_apply, PerLob.gridRow]
          simp [of_decide_eq_true hdrd, of_decide_eq_true hlrl]
        rw [hcongr]
        exact countP_key_eq_one (·.line_of_business) inp.dim_lob b hdb hb
      · exact countP_key_eq_one (·.office_location) inp.dim_location l hdl hl
    · have hsub : (PerLob.dimDateFiltered inp).Sublist inp.dim_date :=
        List.filter_sublist _
      exact countP_key_eq_one (·.date) (PerLob.dimDateFiltered inp) d
        ((hsub.map (·.date)).nodup hdd) hd
  · intro r hr hrd hrl hrb
    rcases PerLob.create_row_src inp out r hout hr with
      ⟨dr, hdr, lr, hlr, br, hbr, hk, hdate, hloc, hlob, hatt⟩
    have hdrdim : dr ∈ inp.dim_date := (List.mem_filter.mp hdr).1
    have hdrd : dr.date = d := by rw [← hdate, hrd]
    have hkd : dr.date_key = encodeDate d := by rw [hkey dr hdrdim, hdrd]
    rw [hatt, hkd, ← hrl, hloc, ← hrb, hlob]
    rw [lookupCount_groupCounts]
    unfold PerLob.occFiltered
    rw [List.countP_filter]
    apply List.countP_congr
    intro e he
    simp only [PerLob.occKey, Bool.and_eq_true, decide_eq_true_eq, Prod.mk.injEq]
    constructor
    · rintro ⟨⟨henc, hel, heb⟩, -⟩
      have hed : e.logon_date = dr.date := hinj e he dr hdrdim (by rw [henc, hdrd])
      exact ⟨⟨by rw [hed, hdrd], hel⟩, heb⟩
    · rintro ⟨⟨hed, hel⟩, heb⟩
      rcases hhorizon with ⟨m, hm, hdm⟩
      refine ⟨⟨by rw [hed], hel, heb⟩, ?_⟩
      rw [hm]
      simp only [decide_eq_true_eq]
      omega

/-- Two locations over two dates — the smallest well-formed shape of the
production data (several offices, a date range).  The grid sorted by
(office_location, date) has date column [20241, 20242, 20241, 20242]:
`pd.merge_asof`'s validation of the `on` key fails on it. -/
def exMulti : Inputs :=
  { dim_date := [⟨20250602, 20241⟩, ⟨20250603, 20242⟩]
    dim_location := [⟨1, "A"⟩, ⟨2, "B"⟩]
    dim_lob := [⟨1, "X"⟩]
    occupancy := [⟨20241, "A", "X"⟩]
    deskcount := [⟨20242, "A", some 3⟩] }

/-- Claim C5 (code bug): grid completeness — exactly one row per (horizon
date, location, LOB) with a zero-filled attendance count — is the evident
intent of steps 1–3 and holds on every run that completes
(`PerLob.grid_completeness_on_success`), but the per-LOB builder cannot
produce any table on a multi-location input: step 4 sorts both frames by
(office_location, date), while `pd.merge_asof` requires its `on` key to be
globally sorted, so the call raises `ValueError: left keys must be sorted`
and no row of any combination exists.  On `exMulti` — two locations, two
dates, well-formed dimensions, a 4-combination grid — the run aborts. -/
theorem claimC5_grid_completeness :
    PerLob.create_fact_occupancy exMulti = none
    ∧ (PerLob.grid exMulti).length = 4
    ∧ PerLob.mergeAsofOk exMulti = false := by
  decide

/-! ## Claim C8 -/

theorem sum_map_add {α : Type} (l : List α) (f g : α → ℕ) :
    (l.map fun x => f x + g x).sum = (l.map f).sum + (l.map g).sum := by
  induction l with
  | nil => simp
  | cons a t ih =>
    simp only [List.map_cons, List.sum_cons, ih]
    omega

theorem sum_indicator_eq_countP {α : Type} (l : List α) (p : α → Bool) :
    (l.map fun a => if p a then 1 else 0).sum = l.countP p := by
  induction l with
  | nil => simp
  | cons a t ih =>
    by_cases h : p a <;> simp [List.countP_cons, h, ih] <;> omega

/-- Splitting an event count over a duplicate-free list of LOB names covering
all matching events. -/
theorem countP_split_lob (evs : List OccRow) (lobs : List String) (pbase : OccRow → Bool)
    (hnd : lobs.Nodup)
    (hcov : ∀ e ∈ evs, pbase e = true → e.line_of_business ∈ lobs) :
    (lobs.map fun b => evs.countP fun e =>
      pbase e && decide (e.line_of_business = b)).sum = evs.countP pbase := by
  induction evs with
  | nil => simp
  | cons e t ih =>
    have hcov' : ∀ x ∈ t, pbase x = true → x.line_of_business ∈ lobs :=
      fun x hx hp => hcov x (List.mem_cons_of_mem _ hx) hp
    simp only [List.countP_cons]
    rw [sum_map_add]
    rw [ih hcov']
    by_cases hp : pbase e = true
    · have hmem : e.line_of_business ∈ lobs := hcov e (List.mem_cons_self e t) hp
      simp only [hp, Bool.true_and, if_true]
      rw [sum_indicator_eq_countP]
      have hflip : lobs.countP (fun b => decide (e.line_of_business = b))
          = lobs.countP (fun b => decide (b = e.line_of_business)) := by
        apply List.countP_congr
        intro b hb
        simp [eq_comm]
      rw [hflip]
      have h1 : (lobs.map fun x => x).Nodup := by simpa using hnd
      have h2 : e.line_of_business ∈ lobs.map fun x => x := by simpa using hmem
      have := countP_key_eq_one (fun x => x) lobs e.line_of_business h1 h2
      simpa using this
    · have hp' : pbase e = false := by simpa using hp
      simp [hp']

/-- The attendance attached to a grid key of the per-LOB fact is the number of
matching raw events (needs the YYYYMMDD encoding to separate the occurring
dates, and the date to lie in the covered horizon). -/
theorem PerLob.lookup_att (inp : Inputs)
    (hinj : ∀ e ∈ inp.occupancy, ∀ dr ∈ inp.dim_date,
      encodeDate e.logon_date = encodeDate dr.date → e.logon_date = dr.date)
    (d : Int) (l b : String)
    (hd : d ∈ (PerLob.dimDateFiltered inp).map (·.date)) :
    lookupCount (groupCounts PerLob.occKey (PerLob.occFiltered inp)) (encodeDate d, l, b)
      = inp.occupancy.countP fun e => decide (e.logon_date = d)
          && decide (e.office_location = l) && decide (e.line_of_business = b) := by
  rcases List.mem_map.mp hd with ⟨dr, hdr, hdrd⟩
  have hdrdim : dr ∈ inp.dim_date := (List.mem_filter.mp hdr).1
  have hhor : ∃ m, PerLob.latestDeskDate inp = some m ∧ d ≤ m := by
    have hpred := (List.mem_filter.mp hdr).2
    cases hm : PerLob.latestDeskDate inp with
    | none =>
      rw [hm] at hpred
      cases hpred
    | some m =>
      rw [hm] at hpred
      exact ⟨m, rfl, hdrd ▸ of_decide_eq_true hpred⟩
  rw [lookupCount_groupCounts]
  unfold occFiltered
  rw [List.countP_filter]
  apply List.countP_congr
  intro e he
  simp only [occKey, Bool.and_eq_true, decide_eq_true_eq, Prod.mk.injEq]
  constructor
  · rintro ⟨⟨henc, hel, heb⟩, -⟩
    have hed : e.logon_date = dr.date := hinj e he dr hdrdim (by rw [henc, hdrd])
    exact ⟨⟨by rw [hed, hdrd], hel⟩, heb⟩
  · rintro ⟨⟨hed, hel⟩, heb⟩
    rcases hhor with ⟨m, hm, hdm⟩
    refine ⟨⟨by rw [hed], hel, heb⟩, ?_⟩
    rw [hm]
    simp only [decide_eq_true_eq]
    omega

/-- Aggregated twin of `PerLob.lookup_att`. -/
theorem Agg.lookup_att_agg (inp : Inputs)
    (hinj : ∀ e ∈ inp.occupancy, ∀ dr ∈ inp.dim_date,
      encodeDate e.logon_date = encodeDate dr.date → e.logon_date = dr.date)
    (d : Int) (l : String)
    (hd : d ∈ (Agg.dimDateFiltered inp).map (·.date)) :
    lookupCount (groupCounts Agg.occKey (Agg.occFiltered inp)) (encodeDate d, l)
      = inp.occupancy.countP fun e => decide (e.logon_date = d)
          && decide (e.office_location = l) := by
  rcases List.mem_map.mp hd with ⟨dr, hdr, hdrd⟩
  have hdrdim : dr ∈ inp.dim_date := (List.mem_filter.mp hdr).1
  have hhor : ∃ c : Int × Int, Agg.coverage inp = some c ∧ d ≤ c.2 := by
    have hpred := (List.mem_filter.mp hdr).2
    cases hc : Agg.coverage inp with
    | none =>
      rw [hc] at hpred
      cases hpred
    | some c =>
      rw [hc] at hpred
      simp only [Bool.and_eq_true, decide_eq_true_eq] at hpred
      exact ⟨c, rfl, hdrd ▸ hpred.2⟩
  rw [lookupCount_groupCounts]
  unfold occFiltered
  rw [List.countP_filter]
  apply List.countP_congr
  intro e he
  simp only [occKey, Bool.and_eq_true, decide_eq_true_eq, Prod.mk.injEq]
  constructor
  · rintro ⟨⟨henc, hel⟩, -⟩
    have hed : e.logon_date = dr.date := hinj e he dr hdrdim (by rw [henc, hdrd])
    exact ⟨by rw [hed, hdrd], hel⟩
  · rintro ⟨hed, hel⟩
    rcases hhor with ⟨c, hc, hdc⟩
    refine ⟨⟨by rw [hed], hel⟩, ?_⟩
    rw [hc]
    simp only [decide_eq_true_eq]
    omega

theorem attSum_perm {α : Type} (f : α → ℕ) (q : α → Bool) {l l' : List α}
    (h : l.Perm l') : ((l.filter q).map f).sum = ((l'.filter q).map f).sum :=
  ((h.filter q).map f).sum_eq

theorem attSum_map {α : Type} (g : α → α) (f : α → ℕ) (q : α → Bool) (l : List α)
    (hq : ∀ a, q (g a) = q a) (hf : ∀ a, f (g a) = f a) :
    (((l.map g).filter q).map f).sum = ((l.filter q).map f).sum := by
  rw [List.filter_map, List.map_map]
  rw [show (q ∘ g) = q from funext hq, show (f ∘ g) = f from funext hf]

/-- Attendance sums over matching rows pass unchanged from a completing run's
table to `withRateTable`. -/
theorem PerLob.attSum_create_withRateTable (inp : Inputs) (out : List PerLob.FactRow)
    (q : PerLob.FactRow → Bool)
    (hout : PerLob.create_fact_occupancy inp = some out)
    (h1 : ∀ (t : List PerLob.FactRow) (r : PerLob.FactRow),
      q (PerLob.weekendRow (PerLob.flagRow t r)) = q r) :
    ((out.filter q).map fun r => r.attendance_count).sum
      = (((PerLob.withRateTable inp).filter q).map fun r => r.attendance_count).sum := by
  rcases (PerLob.create_some_iff inp out).mp hout with ⟨-, rfl⟩
  unfold calculate_hybrid_day_flags
  rw [attSum_perm _ _ (List.perm_insertionSort _ _), List.map_map]
  exact attSum_map _ _ _ _ (fun r => h1 _ r) (fun r => rfl)

/-- …and from `withRateTable` down to the grid. -/
theorem PerLob.attSum_withRateTable_grid (inp : Inputs) (q : PerLob.FactRow → Bool)
    (h2 : ∀ r, q (PerLob.rateRow (PerLob.capRow inp r)) = q r) :
    (((PerLob.withRateTable inp).filter q).map fun r => r.attendance_count).sum
      = (((PerLob.grid inp).filter q).map fun r => r.attendance_count).sum := by
  unfold withRateTable sortedGrid
  rw [List.map_map]
  have hstep := attSum_map (PerLob.rateRow ∘ PerLob.capRow inp)
    (fun r => r.attendance_count) q
    (List.insertionSort (fun a b => strLt a.office_location b.office_location
      ∨ (a.office_location = b.office_location ∧ a.date ≤ b.date)) (PerLob.grid inp))
    (fun r => h2 r) (fun r => rfl)
  rw [hstep]
  exact attSum_perm _ _ (List.perm_insertionSort _ _)

theorem sum_map_filter_flatMap {α β : Type} (l : List α) (f : α → List β)
    (q : β → Bool) (g : β → ℕ) :
    (((l.flatMap f).filter q).map g).sum
      = (l.map fun a => (((f a).filter q).map g).sum).sum := by
  induction l with
  | nil => simp
  | cons a t ih =>
    simp only [List.flatMap_cons, List.filter_append, List.map_append,
      List.sum_append, ih, List.map_cons, List.sum_cons]

/-- The attendance of all grid rows at one (date, location), summed over the
LOB dimension. -/
theorem PerLob.attSum_grid (inp : Inputs) (d : Int) (l : String)
    (hdd : (inp.dim_date.map (·.date)).Nodup)
    (hdl : (inp.dim_location.map (·.office_location)).Nodup)
    (hkey : ∀ dr ∈ inp.dim_date, dr.date_key = encodeDate dr.date)
    (hd : d ∈ (PerLob.dimDateFiltered inp).map (·.date))
    (hl : l ∈ inp.dim_location.map (·.office_location)) :
    (((PerLob.grid inp).filter fun r =>
        decide (r.date = d) && decide (r.office_location = l)).map
      fun r => r.attendance_count).sum
    = (inp.dim_lob.map fun br =>
        lookupCount (groupCounts PerLob.occKey (PerLob.occFiltered inp))
          (encodeDate d, l, br.line_of_business)).sum := by
  unfold grid
  rw [sum_map_filter_flatMap]
  apply sum_map_eq_of_single _ _ (fun dr => decide (dr.date = d))
  · intro dr hdr hdrd
    simp only [decide_eq_false_iff_not] at hdrd
    have hnil : ((inp.dim_location.flatMap fun lr =>
        List.map (fun br => PerLob.gridRow inp dr lr br) inp.dim_lob).filter fun r =>
          decide (r.date = d) && decide (r.office_location = l)) = [] := by
      rw [List.filter_eq_nil_iff]
      intro g hg
      rcases List.mem_flatMap.mp hg with ⟨lr, hlr, hg2⟩
      rcases List.mem_map.mp hg2 with ⟨br, hbr, rfl⟩
      simp only [PerLob.gridRow, Bool.and_eq_true, decide_eq_true_eq]
      rintro ⟨hgd, -⟩
      exact hdrd hgd
    rw [hnil]
    rfl
  · intro dr hdr hdrd
    simp only [decide_eq_true_eq] at hdrd
    rw [sum_map_filter_flatMap]
    apply sum_map_eq_of_single _ _ (fun lr => decide (lr.office_location = l))
    · intro lr hlr hlrl
      simp only [decide_eq_false_iff_not] at hlrl
      have hnil : ((List.map (fun br => PerLob.gridRow inp dr lr br) inp.dim_lob).filter
          fun r => decide (r.date = d) && decide (r.office_location = l)) = [] := by
        rw [List.filter_eq_nil_iff]
        intro g hg
        rcases List.mem_map.mp hg with ⟨br, hbr, rfl⟩
        simp only [PerLob.gridRow, Bool.and_eq_true, decide_eq_true_eq]
        rintro ⟨-, hgl⟩
        exact hlrl hgl
      rw [hnil]
      rfl
    · intro lr hlr hlrl
      simp only [decide_eq_true_eq] at hlrl
      rw [List.filter_map, List.map_map]
      have hself : (inp.dim_lob.filter ((fun r =>
          decide (r.date = d) && decide (r.office_location = l)) ∘
            PerLob.gridRow inp dr lr)) = inp.dim_lob := by
        apply List.filter_eq_self.mpr
        intro br hbr
        simp [PerLob.gridRow, hdrd, hlrl]
      rw [hself]
      congr 1
      apply List.map_congr_left
      intro br hbr
      simp only [Function.comp_apply, PerLob.gridRow]
      rw [hkey dr ((List.mem_filter.mp hdr).1), hdrd, hlrl]
    · exact countP_key_eq_one (·.office_location) inp.dim_location l hdl hl
  · exact countP_key_eq_one (·.date) (PerLob.dimDateFiltered inp) d
      (((List.filter_sublist _).map (fun dr : DateRow => dr.date)).nodup hdd) hd

/-- Two June dates (Sunday the 1st and Monday the 2nd), one event and one
snapshot on the Monday: the two builders cover different horizons. -/
def exC8h : Inputs :=
  { dim_date := [⟨20250601, 20240⟩, ⟨20250602, 20241⟩]
    dim_location := [⟨1, "A"⟩]
    dim_lob := [⟨1, "X"⟩]
    occupancy := [⟨20241, "A", "X"⟩]
    deskcount := [⟨20241, "A", some 2⟩] }

/-- Claim C8, counterexample: the two variants are not the identical pipeline
modulo the LOB dimension.  (1) Horizons differ: on `exC8h` the per-LOB fact
has 2 rows (every dim date ≤ the latest deskcount date) while the aggregated
fact has 1 (its window starts at the first occupancy date).  (2) Even on
`exFlags`, where the two covered horizons coincide, the hybrid flags differ:
the zero-attendance Tuesday is flagged in the aggregated fact but not in the
per-LOB fact. -/
theorem claimC8_counterexample :
    (PerLob.create_fact_occupancy exC8h).isSome = true
    ∧ ((PerLob.create_fact_occupancy exC8h).getD []).length = 2
    ∧ (Agg.create_fact_occupancy_aggregated exC8h).length = 1
    ∧ PerLob.dimDateFiltered exFlags = Agg.dimDateFiltered exFlags
    ∧ (((PerLob.create_fact_occupancy exFlags).getD []).countP fun r =>
        decide (r.date = 20242) && r.is_hybrid_day) = 0
    ∧ ((Agg.create_fact_occupancy_aggregated exFlags).countP fun r =>
        decide (r.date = 20242) && r.is_hybrid_day) = 1 := by
  decide

/-- Claim C8, amended: for well-formed inputs on which the per-LOB builder
completes at all (it aborts in step 4's merge_asof validation on
multi-location inputs, where the aggregated builder — whose step 4 sorts by
(date, office_location) — still runs), and a (date, location) covered by both
variants' horizons, the aggregated fact's attendance_count equals the per-LOB
fact's attendance_count summed over the LOB dimension at that (date,
location), and both variants attach the same capacity.  (The horizons and the
hybrid-day flags may differ — see the counterexample.) -/
theorem claimC8_lob_aggregation (inp : Inputs)
    (outP : List PerLob.FactRow)
    (houtP : PerLob.create_fact_occupancy inp = some outP)
    (hdd : (inp.dim_date.map (·.date)).Nodup)
    (hdl : (inp.dim_location.map (·.office_location)).Nodup)
    (hdb : (inp.dim_lob.map (·.line_of_business)).Nodup)
    (hkey : ∀ dr ∈ inp.dim_date, dr.date_key = encodeDate dr.date)
    (hinj : ∀ e ∈ inp.occupancy, ∀ dr ∈ inp.dim_date,
      encodeDate e.logon_date = encodeDate dr.date → e.logon_date = dr.date)
    (hlobcov : ∀ e ∈ inp.occupancy,
      e.line_of_business ∈ inp.dim_lob.map (·.line_of_business))
    (d : Int) (l : String)
    (hdP : d ∈ (PerLob.dimDateFiltered inp).map (·.date))
    (hdA : d ∈ (Agg.dimDateFiltered inp).map (·.date))
    (hl : l ∈ inp.dim_location.map (·.office_location)) :
    (∀ r ∈ Agg.create_fact_occupancy_aggregated inp,
      r.date = d → r.office_location = l →
      r.attendance_count
        = ((outP.filter fun r2 =>
            decide (r2.date = d) && decide (r2.office_location = l)).map
          fun r2 => r2.attendance_count).sum)
    ∧ (∀ r ∈ Agg.create_fact_occupancy_aggregated inp,
        ∀ r2 ∈ outP,
        r.date = d → r.office_location = l → r2.date = d → r2.office_location = l →
        r.deskcount = r2.deskcount) := by
  constructor
  · intro r hr hrd hrl
    rcases Agg.create_row_src_agg inp r hr with ⟨dr, hdr, lr, hlr, hkk, hdate, hloc, hatt⟩
    have hdrdim : dr ∈ inp.dim_date := (List.mem_filter.mp hdr).1
    have hdrd : dr.date = d := by rw [← hdate]; exact hrd
    have hlrl : lr.office_location = l := by rw [← hloc]; exact hrl
    have hkd : dr.date_key = encodeDate d := by rw [hkey dr hdrdim, hdrd]
    rw [hatt, hkd, hlrl]
    rw [Agg.lookup_att_agg inp hinj d l hdA]
    rw [PerLob.attSum_create_withRateTable inp outP
      (fun r2 => decide (r2.date = d) && decide (r2.office_location = l))
      houtP (fun t r2 => rfl)]
    rw [PerLob.attSum_withRateTable_grid inp
      (fun r2 => decide (r2.date = d) && decide (r2.office_location = l))
      (fun r2 => rfl)]
    rw [PerLob.attSum_grid inp d l hdd hdl hkey hdP hl]
    have hmapeq : (inp.dim_lob.map fun br =>
        lookupCount (groupCounts PerLob.occKey (PerLob.occFiltered inp))
          (encodeDate d, l, br.line_of_business))
      = inp.dim_lob.map fun br => inp.occupancy.countP fun e =>
          (decide (e.logon_date = d) && decide (e.office_location = l))
            && decide (e.line_of_business = br.line_of_business) := by
      apply List.map_congr_left
      intro br hbr
      rw [PerLob.lookup_att inp hinj d l br.line_of_business hdP]
    rw [hmapeq]
    rw [show (inp.dim_lob.map fun br => inp.occupancy.countP fun e =>
        (decide (e.logon_date = d) && decide (e.office_location = l))
          && decide (e.line_of_business = br.line_of_business))
      = ((inp.dim_lob.map (·.line_of_business)).map fun b =>
          inp.occupancy.countP fun e =>
            (decide (e.logon_date = d) && decide (e.office_location = l))
              && decide (e.line_of_business = b))
      from (List.map_map (fun b => inp.occupancy.countP fun e : OccRow =>
          (decide (e.logon_date = d) && decide (e.office_location = l))
            && decide (e.line_of_business = b))
        (fun br : LobRow => br.line_of_business) inp.dim_lob).symm]
    rw [countP_split_lob inp.occupancy _ _ hdb (fun e he hp => hlobcov e he)]
  · intro r hr r2 hr2 hrd hrl hr2d hr2l
    rw [(Agg.create_row_fields_agg inp r hr).2.1,
      (PerLob.create_row_fields inp outP r2 houtP hr2).2.1,
      hrd, hrl, hr2d, hr2l]

/-- Witness for the amended C8 at `exFlags` (a completing single-location
per-LOB run), (2025-06-03, "A"): the aggregated Tuesday row's attendance
equals the per-LOB rows' sum. -/
theorem claimC8_witness :
    exRowTueA.attendance_count
      = ((((PerLob.create_fact_occupancy exFlags).getD []).filter fun r2 =>
          decide (r2.date = 20242) && decide (r2.office_location = "A")).map
        fun r2 => r2.attendance_count).sum :=
  (claimC8_lob_aggregation exFlags ((PerLob.create_fact_occupancy exFlags).getD [])
    (by decide) (by decide) (by decide) (by decide) (by decide)
    (by decide) (by decide) 20242 "A" (by decide) (by decide) (by decide)).1
    exRowTueA (by decide) rfl rfl
